import Mathlib

set_option autoImplicit false

/-!
Shallow embedding of the inference pipeline of the financial-stress
prediction service (`app/preprocessing.py`, `app/predictor.py`,
`app/models.py`), together with theorems settling the specification
claims about it.

Floats are modelled as rationals (no claim under scrutiny depends on
floating-point rounding), pandas `NaN` / Python `None` as the explicit
missing value `Val.na`, a pandas `DataFrame` as an ordered column list
plus association-list rows, and exceptions as `Except Err`.
-/

/-- Scalar cell values: numbers, strings, or missing (`NaN`/`None`). -/
inductive Val where
  | num (q : ℚ)
  | str (s : String)
  | na
  deriving DecidableEq, Repr

/-- Python exceptions that the embedded code can raise. -/
inductive Err where
  | fileNotFound
  | keyError (k : String)
  | attributeError
  | runtimeNotLoaded
  | indexError
  deriving DecidableEq, Repr

/-- One DataFrame row: an association list from column label to cell value. -/
abbrev Record := List (String × Val)

/-- First-match association-list lookup (dict / row access by label). -/
def lookupVal : Record → String → Option Val
  | [], _ => none
  | (k, v) :: r, c => if k = c then some v else lookupVal r c

/-- Lookup in a statistics dictionary (`train_medians` / `train_means`). -/
def lookupStat : List (String × ℚ) → String → Option ℚ
  | [], _ => none
  | (k, v) :: r, c => if k = c then some v else lookupStat r c

/-- A pandas DataFrame: ordered column labels plus rows. -/
structure Frame where
  cols : List String
  rows : List Record
  deriving DecidableEq, Repr

namespace Frame

/-- pandas `df.drop(c, axis=1)`: remove the column label and its cells. -/
def dropCol (df : Frame) (c : String) : Frame :=
  { cols := df.cols.filter (fun k => k ≠ c),
    rows := df.rows.map (fun r => r.filter (fun kv => kv.1 ≠ c)) }

/-- Update the cell of column `c` in one row (used by column assignment). -/
def setEntry (r : Record) (c : String) (v : Val) : Record :=
  r.map (fun kv => if kv.1 = c then (kv.1, v) else kv)

/-- pandas `df[c] = series`: update an existing column in place, or append a
new column at the end of the column order. -/
def setCol (df : Frame) (c : String) (vs : List Val) : Frame :=
  if c ∈ df.cols then
    { cols := df.cols, rows := List.zipWith (fun r v => setEntry r c v) df.rows vs }
  else
    { cols := df.cols ++ [c], rows := List.zipWith (fun r v => r ++ [(c, v)]) df.rows vs }

/-- pandas `df[c]` as a series of cell values; `none` models the `KeyError`
raised when the column label is absent. -/
def getCol (df : Frame) (c : String) : Option (List Val) :=
  if c ∈ df.cols then some (df.rows.map (fun r => (lookupVal r c).getD .na)) else none

/-- Apply `f` to every cell of column `c` (pandas column-wise map). -/
def mapCol (df : Frame) (c : String) (f : Val → Val) : Frame :=
  { cols := df.cols,
    rows := df.rows.map (fun r => r.map (fun kv => if kv.1 = c then (kv.1, f kv.2) else kv)) }

/-- pandas `df[c].isnull().sum() > 0`: does column `c` contain a missing cell? -/
def hasNull (df : Frame) (c : String) : Bool :=
  df.rows.any (fun r => decide ((lookupVal r c).getD Val.na = Val.na))

/-- Replace the missing cells of column `c` in one row by `v`
(pandas `fillna` applied row-wise). -/
def fillColRow (c : String) (v : Val) (r : Record) : Record :=
  r.map (fun kv => if kv.1 = c ∧ kv.2 = Val.na then (kv.1, v) else kv)

/-- pandas `df[c].fillna(v, inplace=True)`. -/
def fillCol (df : Frame) (c : String) (v : Val) : Frame :=
  { cols := df.cols, rows := df.rows.map (fillColRow c v) }

/-- Project one row onto the given column labels, in that order. -/
def projectRow (names : List String) (r : Record) : Record :=
  names.map (fun c => (c, (lookupVal r c).getD Val.na))

/-- pandas `df[names]`: reorder/select columns, raising `KeyError` when a
requested label is absent. -/
def selectCols (df : Frame) (names : List String) : Except Err Frame :=
  match names.find? (fun c => decide (c ∉ df.cols)) with
  | some c => .error (.keyError c)
  | none => .ok { cols := names, rows := df.rows.map (projectRow names) }

/-- Cell of row `i`, column `c` (used only to state theorems). -/
def cell (df : Frame) (i : ℕ) (c : String) : Option Val :=
  (df.rows.get? i).bind (fun r => lookupVal r c)

end Frame

/-! ## Python string primitives used by `preprocess_credit_age` -/

/-- Does the string start with the given pattern? -/
def startsWithL : List Char → List Char → Bool
  | [], _ => true
  | _ :: _, [] => false
  | p :: ps, c :: cs => p == c && startsWithL ps cs

/-- Fuel-indexed core of `replaceAllL` (structural recursion on the fuel, so
that concrete calls reduce in the kernel); with fuel at least the length of
the remaining string the fuel never runs out. -/
def replaceAllGo (p : Char) (ps rep : List Char) : ℕ → List Char → List Char
  | _, [] => []
  | 0, l => l
  | fuel + 1, c :: cs =>
    if startsWithL (p :: ps) (c :: cs) then
      rep ++ replaceAllGo p ps rep fuel (cs.drop ps.length)
    else
      c :: replaceAllGo p ps rep fuel cs

/-- Python `str.replace(pat, rep)` for a non-empty pattern `p :: ps`:
left-to-right, non-overlapping replacement of every occurrence. -/
def replaceAllL (p : Char) (ps rep : List Char) (l : List Char) : List Char :=
  replaceAllGo p ps rep l.length l

/-- Python `str.split(' ')`: split on every single space, keeping empty
pieces. -/
def pySplitSpace : List Char → List (List Char)
  | [] => [[]]
  | c :: cs =>
    if c = ' ' then [] :: pySplitSpace cs
    else
      match pySplitSpace cs with
      | [] => [[c]]
      | t :: ts => (c :: t) :: ts

/-- Numeric value of a decimal digit string (most significant first). -/
def decDigitsVal (ds : List Char) : ℕ :=
  ds.foldl (fun a c => a * 10 + (c.toNat - 48)) 0

/-- Parse a non-empty all-digit string. -/
def pyNatDigits (ds : List Char) : Option ℕ :=
  if ds ≠ [] ∧ ds.all Char.isDigit then some (decDigitsVal ds) else none

/-- Strip leading and trailing spaces. -/
def stripSpaces (l : List Char) : List Char :=
  ((l.dropWhile (fun c => c = ' ')).reverse.dropWhile (fun c => c = ' ')).reverse

/-- Python `int(s)`: optional surrounding whitespace, optional sign, decimal
digits; `none` models the `ValueError` raised on anything else. (Numeric
underscore separators and non-ASCII digits never occur in this repository's
data and are not modelled.) -/
def pyInt (s : List Char) : Option ℤ :=
  match stripSpaces s with
  | [] => none
  | c :: cs =>
    if c = '-' then (pyNatDigits cs).map (fun n => -(n : ℤ))
    else if c = '+' then (pyNatDigits cs).map (fun n => (n : ℤ))
    else (pyNatDigits (c :: cs)).map (fun n => (n : ℤ))

/-! ## `app/preprocessing.py` -/

/-- The `x.replace(' y.', '').replace(' m.', '')` step of
`convert_credit_age`. -/
def creditAgeStrip (s : String) : List Char :=
  replaceAllL ' ' ['m', '.'] [] (replaceAllL ' ' ['y', '.'] [] s.data)

/-- Inner `convert_credit_age` of `preprocess_credit_age`: `pd.isna` guard,
then `x.replace(' y.', '').replace(' m.', '').split(' ')`, `int` on the first
two pieces, `years * 12 + months`; every exception of the `try` block (a
number has no `.replace`, a missing piece, an unparsable piece) yields `NaN`. -/
def convert_credit_age (x : Val) : Val :=
  match x with
  | .na => .na
  | .num _ => .na
  | .str s =>
    let parts := pySplitSpace (creditAgeStrip s)
    match parts.get? 0, parts.get? 1 with
    | some p0, some p1 =>
      match pyInt p0, pyInt p1 with
      | some y, some m => .num ((y * 12 + m : ℤ) : ℚ)
      | _, _ => .na
    | _, _ => .na

/-- `preprocess_credit_age`: derive `credit_age_months_numeric` from
`credit_age_months` and drop the original string column; reading the source
column raises `KeyError` when it is absent. -/
def preprocess_credit_age (df : Frame) : Except Err Frame :=
  match df.getCol "credit_age_months" with
  | none => .error (.keyError "credit_age_months")
  | some vs =>
    let df1 := df.setCol "credit_age_months_numeric" (vs.map convert_credit_age)
    .ok (df1.dropCol "credit_age_months")

/-- pandas `.clip(lower=0)` on one cell: negative numbers become `0`,
missing stays missing. -/
def clipLower0 (v : Val) : Val :=
  match v with
  | .num q => .num (max q 0)
  | v => v

/-- `fix_negative_values`: clip `num_savings_accounts` and
`avg_loan_delay_days` to zero when those columns are present. -/
def fix_negative_values (df : Frame) : Frame :=
  let df1 := if "num_savings_accounts" ∈ df.cols then df.mapCol "num_savings_accounts" clipLower0 else df
  if "avg_loan_delay_days" ∈ df1.cols then df1.mapCol "avg_loan_delay_days" clipLower0 else df1

/-- Numeric cells of a series, in row order. -/
def colNums (vs : List Val) : List ℚ :=
  vs.filterMap (fun v => match v with | .num q => some q | _ => none)

/-- Insertion into a sorted list of rationals. -/
def insertSorted (q : ℚ) : List ℚ → List ℚ
  | [] => [q]
  | x :: xs => if q ≤ x then q :: x :: xs else x :: insertSorted q xs

/-- Insertion sort of rationals. -/
def sortRat (l : List ℚ) : List ℚ := l.foldr insertSorted []

/-- pandas `Series.median()`: missing cells are skipped, an all-missing
series has median `NaN`, an even count averages the two middle values. -/
def seriesMedian (vs : List Val) : Val :=
  let qs := sortRat (colNums vs)
  match qs with
  | [] => .na
  | _ =>
    if qs.length % 2 = 1 then .num (qs.getD (qs.length / 2) 0)
    else .num ((qs.getD (qs.length / 2 - 1) 0 + qs.getD (qs.length / 2) 0) / 2)

/-- pandas `Series.mean()`: missing cells are skipped, an all-missing series
has mean `NaN`. -/
def seriesMean (vs : List Val) : Val :=
  match colNums vs with
  | [] => .na
  | qs => .num (qs.sum / (qs.length : ℚ))

/-- Fill value chosen for a numerical column by `fill_missing_values`:
`train_medians.get(col, df[col].median())` for outlier-prone columns, else
`train_means.get(col, df[col].mean())` — the `dict.get` default falls back
to the statistic of the inbound batch itself. -/
def numFillValue (df : Frame) (train_medians train_means : List (String × ℚ))
    (numerical_cols_outliers : List String) (col : String) : Val :=
  if col ∈ numerical_cols_outliers then
    match lookupStat train_medians col with
    | some q => .num q
    | none => seriesMedian ((df.getCol col).getD [])
  else
    match lookupStat train_means col with
    | some q => .num q
    | none => seriesMean ((df.getCol col).getD [])

/-- One iteration of the numerical loop of `fill_missing_values`:
`if col in df.columns and df[col].isnull().sum() > 0: ... fillna(fill_value)`. -/
def fillNumStep (train_medians train_means : List (String × ℚ))
    (numerical_cols_outliers : List String) (d : Frame) (col : String) : Frame :=
  if col ∈ d.cols ∧ d.hasNull col = true then
    d.fillCol col (numFillValue d train_medians train_means numerical_cols_outliers col)
  else d

/-- One iteration of the categorical loop of `fill_missing_values`:
`fillna('Unknown')` when the column is present and has a missing cell. -/
def fillCatStep (d : Frame) (col : String) : Frame :=
  if col ∈ d.cols ∧ d.hasNull col = true then d.fillCol col (.str "Unknown") else d

/-- `fill_missing_values`: for each numerical column present and containing a
missing cell, fill with `numFillValue`; then fill the missing cells of each
categorical column present with the sentinel string `"Unknown"`. -/
def fill_missing_values (df : Frame) (numerical_cols categorical_cols : List String)
    (train_medians train_means : List (String × ℚ))
    (numerical_cols_outliers : List String) : Frame :=
  categorical_cols.foldl fillCatStep
    (numerical_cols.foldl (fillNumStep train_medians train_means numerical_cols_outliers) df)

/-- `preprocess_input_data`: credit-age conversion, then negative-value
clipping, then missing-value imputation. -/
def preprocess_input_data (data : Frame) (train_medians train_means : List (String × ℚ))
    (numerical_cols_outliers numerical_features categorical_features : List String) :
    Except Err Frame := do
  let df1 ← preprocess_credit_age data
  let df2 := fix_negative_values df1
  return fill_missing_values df2 numerical_features categorical_features
    train_medians train_means numerical_cols_outliers

/-! ## `app/models.py`: the `WorkerFeatures` request schema -/

/-- `app/models.py` `WorkerFeatures`: every field optional, in pydantic
declaration order. Integer-typed counts are modelled as `ℤ`, float fields as
`ℚ`. -/
structure WorkerFeatures where
  worker_id : Option String := none
  survey_month : Option String := none
  worker_age : Option ℚ := none
  job_sector : Option String := none
  estimated_annual_income : Option ℚ := none
  monthly_gig_income : Option ℚ := none
  num_savings_accounts : Option ℤ := none
  num_credit_cards : Option ℤ := none
  avg_credit_interest : Option ℚ := none
  num_active_loans : Option ℤ := none
  avg_loan_delay_days : Option ℚ := none
  missed_payment_events : Option ℤ := none
  recent_credit_checks : Option ℤ := none
  current_total_liability : Option ℚ := none
  credit_utilization_rate : Option ℚ := none
  credit_age_months : Option String := none
  min_payment_flag : Option String := none
  monthly_investments : Option ℚ := none
  spending_behavior : Option String := none
  end_of_month_balance : Option ℚ := none
  deriving DecidableEq, Repr

/-- Optional number as a cell value (`None` becomes `NaN` in the frame). -/
def optNum (x : Option ℚ) : Val :=
  match x with
  | some q => .num q
  | none => .na

/-- Optional integer as a cell value. -/
def optInt (x : Option ℤ) : Val :=
  match x with
  | some n => .num (n : ℚ)
  | none => .na

/-- Optional string as a cell value. -/
def optStr (x : Option String) : Val :=
  match x with
  | some s => .str s
  | none => .na

/-- The column labels of a frame built from `WorkerFeatures.model_dump`
dictionaries, in pydantic field-declaration order. -/
def workerFieldNames : List String :=
  ["worker_id", "survey_month", "worker_age", "job_sector",
   "estimated_annual_income", "monthly_gig_income", "num_savings_accounts",
   "num_credit_cards", "avg_credit_interest", "num_active_loans",
   "avg_loan_delay_days", "missed_payment_events", "recent_credit_checks",
   "current_total_liability", "credit_utilization_rate", "credit_age_months",
   "min_payment_flag", "monthly_investments", "spending_behavior",
   "end_of_month_balance"]

/-- `features.model_dump()`: the record of all declared fields, in
declaration order, absent fields mapped to missing. -/
def model_dump (w : WorkerFeatures) : Record :=
  [("worker_id", optStr w.worker_id),
   ("survey_month", optStr w.survey_month),
   ("worker_age", optNum w.worker_age),
   ("job_sector", optStr w.job_sector),
   ("estimated_annual_income", optNum w.estimated_annual_income),
   ("monthly_gig_income", optNum w.monthly_gig_income),
   ("num_savings_accounts", optInt w.num_savings_accounts),
   ("num_credit_cards", optInt w.num_credit_cards),
   ("avg_credit_interest", optNum w.avg_credit_interest),
   ("num_active_loans", optInt w.num_active_loans),
   ("avg_loan_delay_days", optNum w.avg_loan_delay_days),
   ("missed_payment_events", optInt w.missed_payment_events),
   ("recent_credit_checks", optInt w.recent_credit_checks),
   ("current_total_liability", optNum w.current_total_liability),
   ("credit_utilization_rate", optNum w.credit_utilization_rate),
   ("credit_age_months", optStr w.credit_age_months),
   ("min_payment_flag", optStr w.min_payment_flag),
   ("monthly_investments", optNum w.monthly_investments),
   ("spending_behavior", optStr w.spending_behavior),
   ("end_of_month_balance", optNum w.end_of_month_balance)]

/-- pydantic boundary validation of one optional float field with a `ge`
bound (absent fields pass). -/
def checkGe (x : Option ℚ) (lo : ℚ) : Bool :=
  match x with
  | none => true
  | some q => decide (lo ≤ q)

/-- pydantic validation of an optional float field with `ge` and `le`. -/
def checkRange (x : Option ℚ) (lo hi : ℚ) : Bool :=
  match x with
  | none => true
  | some q => decide (lo ≤ q ∧ q ≤ hi)

/-- pydantic validation of an optional integer field with a `ge` bound. -/
def checkGeInt (x : Option ℤ) (lo : ℤ) : Bool :=
  match x with
  | none => true
  | some n => decide (lo ≤ n)

/-- pydantic validation of `WorkerFeatures`: the conjunction of every
`Field` constraint of `app/models.py` (`worker_age` in 14..120, the listed
amounts and counts nonnegative, the two rates in 0..100,
`end_of_month_balance` nonnegative). -/
def workerFeaturesValid (w : WorkerFeatures) : Bool :=
  checkRange w.worker_age 14 120 &&
  checkGe w.estimated_annual_income 0 &&
  checkGe w.monthly_gig_income 0 &&
  checkGeInt w.num_savings_accounts 0 &&
  checkGeInt w.num_credit_cards 0 &&
  checkRange w.avg_credit_interest 0 100 &&
  checkGeInt w.num_active_loans 0 &&
  checkGe w.avg_loan_delay_days 0 &&
  checkGeInt w.missed_payment_events 0 &&
  checkGeInt w.recent_credit_checks 0 &&
  checkGe w.current_total_liability 0 &&
  checkRange w.credit_utilization_rate 0 100 &&
  checkGe w.monthly_investments 0 &&
  checkGe w.end_of_month_balance 0

/-- `pd.DataFrame(list of model_dump dicts)`: uniform keys give the pydantic
column order; an empty list gives a frame with no columns at all. -/
def frameOfWorkers (ws : List WorkerFeatures) : Frame :=
  { cols := if ws.isEmpty then [] else workerFieldNames,
    rows := ws.map model_dump }

/-! ## `app/predictor.py`: the serving facade -/

/-- The trained classifier: deterministic per-row class index and per-row
class-probability vector (scikit-learn models predict row-wise). -/
structure SkModel where
  predict : Record → ℕ
  predict_proba : Record → List ℚ

/-- The fitted `ColumnTransformer`: a deterministic row-wise transformation.
Its output is consumed opaquely by the classifier, so the two are composed
here: the classifier functions take the untransformed projected row. -/
structure SkColumnTransformer where
  transform : Record → Record

/-- The fitted `LabelEncoder`: the stored class-name ordering. -/
structure SkLabelEncoder where
  classes_ : List String

/-- `label_encoder.inverse_transform([i])[0]`. -/
def inverse_transform (e : SkLabelEncoder) (i : ℕ) : String :=
  e.classes_.getD i ""

/-- The serialized artifact dictionary: each key possibly absent
(`artifacts[k]` on an absent key raises `KeyError`). -/
structure ArtifactFile where
  model : Option SkModel := none
  preprocessor : Option SkColumnTransformer := none
  label_encoder : Option SkLabelEncoder := none
  train_medians : Option (List (String × ℚ)) := none
  train_means : Option (List (String × ℚ)) := none
  numerical_cols_outliers : Option (List String) := none
  numerical_features : Option (List String) := none
  categorical_features : Option (List String) := none
  feature_names : Option (List String) := none

/-- `FinancialStressPredictor` instance state: `artifact_file` models what
sits at `model_path` on disk (`none` = file absent); the remaining fields
mirror the attributes set in `__init__` / `load_model`. -/
structure Predictor where
  artifact_file : Option ArtifactFile
  model : Option SkModel := none
  preprocessor : Option SkColumnTransformer := none
  label_encoder : Option SkLabelEncoder := none
  train_medians : Option (List (String × ℚ)) := none
  train_means : Option (List (String × ℚ)) := none
  numerical_cols_outliers : Option (List String) := none
  numerical_features : Option (List String) := none
  categorical_features : Option (List String) := none
  feature_names : Option (List String) := none
  loadedFlag : Bool := false

/-- `load_model`: existence check, then the nine sequential component
extractions (each mutating one attribute, failing with `KeyError` when the
key is absent), and only after all nine succeed `self._loaded = True`.
Returns the mutated state together with the raised exception, if any. -/
def load_model (p : Predictor) : Predictor × Option Err :=
  match p.artifact_file with
  | none => (p, some .fileNotFound)
  | some a =>
    match a.model with
    | none => (p, some (.keyError "model"))
    | some c1 =>
      let p := { p with model := some c1 }
      match a.preprocessor with
      | none => (p, some (.keyError "preprocessor"))
      | some c2 =>
        let p := { p with preprocessor := some c2 }
        match a.label_encoder with
        | none => (p, some (.keyError "label_encoder"))
        | some c3 =>
          let p := { p with label_encoder := some c3 }
          match a.train_medians with
          | none => (p, some (.keyError "train_medians"))
          | some c4 =>
            let p := { p with train_medians := some c4 }
            match a.train_means with
            | none => (p, some (.keyError "train_means"))
            | some c5 =>
              let p := { p with train_means := some c5 }
              match a.numerical_cols_outliers with
              | none => (p, some (.keyError "numerical_cols_outliers"))
              | some c6 =>
                let p := { p with numerical_cols_outliers := some c6 }
                match a.numerical_features with
                | none => (p, some (.keyError "numerical_features"))
                | some c7 =>
                  let p := { p with numerical_features := some c7 }
                  match a.categorical_features with
                  | none => (p, some (.keyError "categorical_features"))
                  | some c8 =>
                    let p := { p with categorical_features := some c8 }
                    match a.feature_names with
                    | none => (p, some (.keyError "feature_names"))
                    | some c9 =>
                      ({ p with feature_names := some c9, loadedFlag := true }, none)

/-- `is_loaded`. -/
def is_loaded (p : Predictor) : Bool :=
  p.loadedFlag

/-- `__init__`: initialize every attribute to `None` / `False`, keeping
`model_path` (here: the disk content it designates). -/
def initPredictor (file : Option ArtifactFile) : Predictor :=
  { artifact_file := file }

/-- `FinancialStressPredictor(...)`: `__init__` ends by calling
`self.load_model()`, so construction propagates any load failure and an
unloaded instance is never returned. -/
def newPredictor (file : Option ArtifactFile) : Except Err Predictor :=
  match load_model (initPredictor file) with
  | (_, some e) => .error e
  | (p, none) => .ok p

/-- `Predictor.preprocess`: drop `worker_id` when present (keeping its
column for the caller), run `preprocess_input_data` with the loaded
statistics, then reorder to `feature_names` (a `KeyError` when an expected
column is absent). Unset attributes (only possible on an unloaded instance)
surface as the `AttributeError`-style crash of the Python code. -/
def Predictor.preprocess (p : Predictor) (data : Frame) :
    Except Err (Frame × Option (List Val)) :=
  let worker_ids : Option (List Val) :=
    if "worker_id" ∈ data.cols then data.getCol "worker_id" else none
  let data1 : Frame :=
    if "worker_id" ∈ data.cols then data.dropCol "worker_id" else data
  match p.train_medians, p.train_means, p.numerical_cols_outliers,
      p.numerical_features, p.categorical_features, p.feature_names with
  | some meds, some means, some outs, some nf, some cf, some fn => do
    let processed ← preprocess_input_data data1 meds means outs nf cf
    let reordered ← processed.selectCols fn
    return (reordered, worker_ids)
  | _, _, _, _, _, _ => .error .attributeError

/-- `predict_single`: readiness guard, single-row frame from `model_dump`,
`preprocess`, transform, `predict(X)[0]` / `predict_proba(X)[0]`, decode,
and the class-name-to-probability dictionary built with
`zip(label_encoder.classes_, probabilities)`. -/
def Predictor.predict_single (p : Predictor) (features : WorkerFeatures) :
    Except Err (String × List (String × ℚ)) :=
  if p.loadedFlag = false then .error .runtimeNotLoaded
  else
    match p.model, p.preprocessor, p.label_encoder with
    | some m, some pre, some enc => do
      let pp ← p.preprocess (frameOfWorkers [features])
      let X := pp.1.rows.map pre.transform
      match (X.map m.predict).get? 0, (X.map m.predict_proba).get? 0 with
      | some prediction, some probabilities =>
        let predicted_class := inverse_transform enc prediction
        return (predicted_class, enc.classes_.zip probabilities)
      | _, _ => .error .indexError
    | _, _, _ => .error .attributeError

/-! ## Statement and proof vocabulary (derived notions, not source code) -/

/-- The keys of a row, in order. -/
def rowKeys (r : Record) : List String := r.map Prod.fst

/-- A well-formed frame: distinct column labels and every row keyed exactly
by the column list (frames built from `model_dump` dictionaries are of this
shape). -/
def Frame.wf (df : Frame) : Prop :=
  df.cols.Nodup ∧ ∀ r ∈ df.rows, rowKeys r = df.cols

/-- All nine components extracted by `load_model` are present. -/
def artifactComplete (a : ArtifactFile) : Bool :=
  a.model.isSome && a.preprocessor.isSome && a.label_encoder.isSome &&
  a.train_medians.isSome && a.train_means.isSome &&
  a.numerical_cols_outliers.isSome && a.numerical_features.isSome &&
  a.categorical_features.isSome && a.feature_names.isSome

/-- The bundle statistics cover every declared numerical feature (true of
the artifact produced by `scripts/train_model.py`, which computes
`train_medians`/`train_means` over all numerical columns). -/
def statsTotal (meds means : List (String × ℚ)) (numC : List String) : Prop :=
  ∀ c ∈ numC, (lookupStat meds c).isSome = true ∧ (lookupStat means c).isSome = true

/-- The fill value of `fill_missing_values` when the bundle statistic is
present: training median for outlier-prone columns, else training mean. -/
def statFillValue (meds means : List (String × ℚ)) (outs : List String)
    (col : String) : Val :=
  if col ∈ outs then
    match lookupStat meds col with
    | some q => .num q
    | none => .na
  else
    match lookupStat means col with
    | some q => .num q
    | none => .na

/-- Derived credit-age cell of one row. -/
def creditRowVal (r : Record) : Val :=
  convert_credit_age ((lookupVal r "credit_age_months").getD .na)

/-- Row-level effect of `preprocess_credit_age` on a frame with column list
`C`. -/
def creditRow (C : List String) (r : Record) : Record :=
  (if "credit_age_months_numeric" ∈ C then
      Frame.setEntry r "credit_age_months_numeric" (creditRowVal r)
    else r ++ [("credit_age_months_numeric", creditRowVal r)]).filter
    (fun kv => kv.1 ≠ "credit_age_months")

/-- Column-level effect of `preprocess_credit_age`. -/
def creditCols (C : List String) : List String :=
  (if "credit_age_months_numeric" ∈ C then C else C ++ ["credit_age_months_numeric"]).filter
    (fun k => k ≠ "credit_age_months")

/-- Row-level effect of `Frame.mapCol` with `clipLower0`. -/
def clipRow (c : String) (r : Record) : Record :=
  r.map (fun kv => if kv.1 = c then (kv.1, clipLower0 kv.2) else kv)

/-- Row-level effect of `fix_negative_values`. -/
def negRow (C : List String) (r : Record) : Record :=
  let r1 := if "num_savings_accounts" ∈ C then clipRow "num_savings_accounts" r else r
  if "avg_loan_delay_days" ∈ C then clipRow "avg_loan_delay_days" r1 else r1

/-- Row-level effect of one numerical `fill_missing_values` iteration when
the bundle statistics are total. -/
def fillNumRow (meds means : List (String × ℚ)) (outs C : List String)
    (r : Record) (col : String) : Record :=
  if col ∈ C then Frame.fillColRow col (statFillValue meds means outs col) r else r

/-- Row-level effect of one categorical `fill_missing_values` iteration. -/
def fillCatRow (C : List String) (r : Record) (col : String) : Record :=
  if col ∈ C then Frame.fillColRow col (.str "Unknown") r else r

/-- Row-level effect of all of `fill_missing_values`. -/
def fillRow (numC catC : List String) (meds means : List (String × ℚ))
    (outs C : List String) (r : Record) : Record :=
  catC.foldl (fillCatRow C) (numC.foldl (fillNumRow meds means outs C) r)

/-- Column labels of a `model_dump` frame after the `worker_id` drop. -/
def workerCols1 : List String := workerFieldNames.filter (fun k => k ≠ "worker_id")

/-- Column labels of a `model_dump` frame after the whole normalization
pipeline. -/
def pipeCols : List String := creditCols workerCols1

/-- Row-level effect of `Predictor.preprocess` (before the final
projection) on one `model_dump` row, when the bundle statistics are
total. -/
def pipeRow (meds means : List (String × ℚ)) (outs nf cf : List String)
    (r : Record) : Record :=
  fillRow nf cf meds means outs pipeCols
    (negRow pipeCols (creditRow workerCols1 (r.filter (fun kv => kv.1 ≠ "worker_id"))))

/-! ## Concrete objects used by witnesses and counterexamples -/

/-- A concrete classifier for witnesses. -/
def cModel : SkModel := ⟨fun _ => 1, fun _ => [1/4, 1/2, 1/4]⟩

/-- A concrete fitted transformer for witnesses. -/
def cTrans : SkColumnTransformer := ⟨fun r => r⟩

/-- A concrete label encoder for witnesses. -/
def cEnc : SkLabelEncoder := ⟨["High", "Low", "Moderate"]⟩

/-- Concrete training medians. -/
def cMedians : List (String × ℚ) := [("worker_age", 30), ("credit_age_months_numeric", 100)]

/-- Concrete training means. -/
def cMeans : List (String × ℚ) := [("worker_age", 35), ("credit_age_months_numeric", 120)]

/-- Concrete outlier-prone columns. -/
def cOutliers : List String := ["credit_age_months_numeric"]

/-- Concrete declared numerical features. -/
def cNumFeats : List String := ["worker_age", "credit_age_months_numeric"]

/-- Concrete declared categorical features. -/
def cCatFeats : List String := ["job_sector"]

/-- Concrete final feature order. -/
def cFeatureNames : List String := ["worker_age", "job_sector", "credit_age_months_numeric"]

/-- A complete concrete artifact bundle. -/
def cFile : ArtifactFile :=
  { model := some cModel, preprocessor := some cTrans, label_encoder := some cEnc,
    train_medians := some cMedians, train_means := some cMeans,
    numerical_cols_outliers := some cOutliers, numerical_features := some cNumFeats,
    categorical_features := some cCatFeats, feature_names := some cFeatureNames }

/-- The loaded predictor over `cFile`. -/
def cPred : Predictor :=
  { artifact_file := some cFile, model := some cModel, preprocessor := some cTrans,
    label_encoder := some cEnc, train_medians := some cMedians, train_means := some cMeans,
    numerical_cols_outliers := some cOutliers, numerical_features := some cNumFeats,
    categorical_features := some cCatFeats, feature_names := some cFeatureNames,
    loadedFlag := true }

/-- The loaded predictor over `cFile` with a feature order naming a column
that the normalization pipeline never produces. -/
def cPredBadFeature : Predictor :=
  { artifact_file := some cFile, model := some cModel, preprocessor := some cTrans,
    label_encoder := some cEnc, train_medians := some cMedians, train_means := some cMeans,
    numerical_cols_outliers := some cOutliers, numerical_features := some cNumFeats,
    categorical_features := some cCatFeats, feature_names := some ["nonexistent_feature"],
    loadedFlag := true }

/-- A frame with one missing cell in each of an outlier-prone numerical, a
plain numerical and a categorical column. -/
def mixedNaFrame : Frame :=
  ⟨["a", "b", "s"], [[("a", Val.na), ("b", Val.na), ("s", Val.na)]]⟩

/-- A one-column frame whose only credit-age cell is missing. -/
def tinyCreditFrame : Frame := ⟨["credit_age_months"], [[("credit_age_months", Val.na)]]⟩

/-- The normalization-pipeline output on `tinyCreditFrame` under the
concrete bundle statistics. -/
def tinyCreditFrameOut : Frame :=
  ⟨["credit_age_months_numeric"], [[("credit_age_months_numeric", Val.num 100)]]⟩

/-- A classifier that reacts to the imputed `worker_age` cell. -/
def cModelSens : SkModel :=
  { predict := fun r => if lookupVal r "worker_age" = some (Val.num 40) then 1 else 0,
    predict_proba := fun r => if lookupVal r "worker_age" = some (Val.num 40) then [1] else [0] }

/-- A loaded predictor whose statistics dictionaries are empty, so every
numerical fill falls back to the inbound batch's own statistic. -/
def cPredNoStats : Predictor :=
  { artifact_file := none, model := some cModelSens, preprocessor := some cTrans,
    label_encoder := some cEnc, train_medians := some [], train_means := some [],
    numerical_cols_outliers := some ["worker_age"], numerical_features := some ["worker_age"],
    categorical_features := some [], feature_names := some ["worker_age"], loadedFlag := true }

/-- A request record with only the age present. -/
def wAge40 : WorkerFeatures := { worker_age := some 40 }

/-- A bundle holding exactly the six components named in the specification's
data-model section (classifier, transformer, label encoder, medians, means,
outlier columns) and nothing else. -/
def sixComponentFile : ArtifactFile :=
  { model := some cModel, preprocessor := some cTrans, label_encoder := some cEnc,
    train_medians := some cMedians, train_means := some cMeans,
    numerical_cols_outliers := some cOutliers }

/-- A concrete request record. -/
def cWorker : WorkerFeatures :=
  { worker_id := some "abc123", worker_age := some 28, job_sector := some "Writer",
    credit_age_months := some "20 y. 7 m." }

/-- A concrete request record with every field absent. -/
def cWorkerEmpty : WorkerFeatures := {}

/-- A concrete request record with a negative end-of-month balance. -/
def cWorkerNegBalance : WorkerFeatures := { end_of_month_balance := some (-100) }

/-- A concrete valid request record with a positive end-of-month balance. -/
def cWorkerPosBalance : WorkerFeatures := { end_of_month_balance := some 5 }

/-- A frame with negative values in the clamped and unclamped columns. -/
def negValsFrame : Frame :=
  ⟨["num_savings_accounts", "avg_loan_delay_days", "end_of_month_balance"],
   [[("num_savings_accounts", .num (-3)), ("avg_loan_delay_days", .num (-2)),
     ("end_of_month_balance", .num (-100))]]⟩

/-- A single-record batch whose only cell of column `x` is missing. -/
def oneRowNaFrame : Frame := ⟨["x"], [[("x", .na)]]⟩

/-- The same record accompanied by a second record carrying `x = 4`. -/
def twoRowFrame : Frame := ⟨["x"], [[("x", .na)], [("x", .num 4)]]⟩

/-- An already-normalized record: final column order, no missing values, the
credit-age string column long since removed. -/
def normalizedFrame : Frame :=
  ⟨["worker_age", "credit_age_months_numeric"],
   [[("worker_age", .num 28), ("credit_age_months_numeric", .num 247)]]⟩

/-- `predict_batch`: readiness guard, one frame from all `model_dump`
dictionaries, one shared `preprocess`/transform pass, vectorized predict,
probabilities and decode, results zipped in row order. -/
def Predictor.predict_batch (p : Predictor) (features_list : List WorkerFeatures) :
    Except Err (List (String × List (String × ℚ))) :=
  if p.loadedFlag = false then .error .runtimeNotLoaded
  else
    match p.model, p.preprocessor, p.label_encoder with
    | some m, some pre, some enc => do
      let pp ← p.preprocess (frameOfWorkers features_list)
      let X := pp.1.rows.map pre.transform
      let predictions := X.map m.predict
      let probabilities := X.map m.predict_proba
      let predicted_classes := predictions.map (inverse_transform enc)
      return (predicted_classes.zip probabilities).map
        (fun z => (z.1, enc.classes_.zip z.2))
    | _, _, _ => .error .attributeError

/-! # Helper lemmas -/

theorem except_bind_error {α β : Type} (x : Except Err α) (f : α → Except Err β) {e : Err}
    (h : (x >>= f) = .error e) : x = .error e ∨ ∃ v, x = .ok v ∧ f v = .error e := by
  cases x with
  | error e1 =>
    left
    have he : e1 = e := by simpa [Bind.bind, Except.bind] using h
    rw [he]
  | ok v =>
    right
    exact ⟨v, rfl, by simpa [Bind.bind, Except.bind] using h⟩

theorem load_model_cases (p : Predictor) :
    ((load_model p).2 = none → (load_model p).1.loadedFlag = true) ∧
    (∀ e, (load_model p).2 = some e → (load_model p).1.loadedFlag = p.loadedFlag) ∧
    ((load_model p).2 = none ↔ ∃ a, p.artifact_file = some a ∧ artifactComplete a = true) := by
  obtain ⟨q, hq⟩ : ∃ q, load_model p = q := ⟨_, rfl⟩
  rw [hq]
  unfold load_model at hq
  repeat' split at hq
  all_goals subst hq
  all_goals simp_all [artifactComplete]

theorem preprocess_credit_age_error_eq (df : Frame) (e : Err)
    (h : preprocess_credit_age df = .error e) : e = .keyError "credit_age_months" := by
  unfold preprocess_credit_age at h
  split at h
  · simpa using h.symm
  · exact absurd h (by simp)

theorem preprocess_input_data_error_eq (data : Frame) (meds means : List (String × ℚ))
    (outs nf cf : List String) (e : Err)
    (h : preprocess_input_data data meds means outs nf cf = .error e) :
    e = .keyError "credit_age_months" := by
  unfold preprocess_input_data at h
  rcases except_bind_error _ _ h with h1 | ⟨v, _, h2⟩
  · exact preprocess_credit_age_error_eq _ _ h1
  · exact absurd h2 (by simp [pure, Except.pure])

theorem selectCols_error_eq (df : Frame) (names : List String) (e : Err)
    (h : df.selectCols names = .error e) : ∃ c, e = .keyError c := by
  unfold Frame.selectCols at h
  split at h
  · exact ⟨_, by simpa using h.symm⟩
  · exact absurd h (by simp)

theorem predictor_preprocess_error_cases (p : Predictor) (df : Frame) (e : Err)
    (h : p.preprocess df = .error e) :
    e = .attributeError ∨ ∃ c, e = .keyError c := by
  unfold Predictor.preprocess at h
  dsimp only at h
  split at h
  · rcases except_bind_error _ _ h with h1 | ⟨v, _, h2⟩
    · exact .inr ⟨_, preprocess_input_data_error_eq _ _ _ _ _ _ _ h1⟩
    · rcases except_bind_error _ _ h2 with h3 | ⟨v2, _, h4⟩
      · exact .inr (selectCols_error_eq _ _ _ h3)
      · exact absurd h4 (by simp [pure, Except.pure])
  · exact .inl (by simpa using h.symm)

theorem predict_single_loaded_no_notReady (p : Predictor) (w : WorkerFeatures)
    (hl : p.loadedFlag = true) :
    p.predict_single w ≠ .error .runtimeNotLoaded := by
  intro h
  unfold Predictor.predict_single at h
  rw [hl] at h
  simp only [Bool.true_eq_false, if_false] at h
  split at h
  · rcases except_bind_error _ _ h with h1 | ⟨v, _, h2⟩
    · rcases predictor_preprocess_error_cases _ _ _ h1 with h3 | ⟨c, h3⟩ <;> simp at h3
    · split at h2 <;> simp [pure, Except.pure] at h2
  · simp at h

theorem predict_batch_loaded_no_notReady (p : Predictor) (ws : List WorkerFeatures)
    (hl : p.loadedFlag = true) :
    p.predict_batch ws ≠ .error .runtimeNotLoaded := by
  intro h
  unfold Predictor.predict_batch at h
  rw [hl] at h
  simp only [Bool.true_eq_false, if_false] at h
  split at h
  · rcases except_bind_error _ _ h with h1 | ⟨v, _, h2⟩
    · rcases predictor_preprocess_error_cases _ _ _ h1 with h3 | ⟨c, h3⟩ <;> simp at h3
    · simp [pure, Except.pure] at h2
  · simp at h

theorem newPredictor_ok_iff (f : Option ArtifactFile) (p : Predictor) :
    newPredictor f = .ok p ↔
      (load_model (initPredictor f)).2 = none ∧ p = (load_model (initPredictor f)).1 := by
  unfold newPredictor
  obtain ⟨q, hq⟩ : ∃ q, load_model (initPredictor f) = q := ⟨_, rfl⟩
  rw [hq]
  obtain ⟨q1, q2⟩ := q
  cases q2 <;> simp [eq_comm]

/-! # Claim theorems -/

/-- C8 (amended): loading validates the artifact bundle before readiness,
but the bundle has NINE required named components, not six: `load_model`
fails with `FileNotFoundError` when the artifact is absent; when the file is
present it succeeds exactly when all nine component keys are present; on any
failure the ready flag is left unchanged; and the flag is set only after a
fully successful load. -/
theorem claim_C8 :
    (∀ p, p.artifact_file = none → load_model p = (p, some .fileNotFound))
    ∧ (∀ p a, p.artifact_file = some a →
        ((load_model p).2 = none ↔ artifactComplete a = true))
    ∧ (∀ p e, (load_model p).2 = some e → (load_model p).1.loadedFlag = p.loadedFlag)
    ∧ (∀ p, (load_model p).2 = none → (load_model p).1.loadedFlag = true) := by
  refine ⟨?_, ?_, fun p e h => (load_model_cases p).2.1 e h, fun p h => (load_model_cases p).1 h⟩
  · intro p h
    unfold load_model
    rw [h]
  · intro p a h
    rw [(load_model_cases p).2.2]
    simp [h]

/-- C8 counterexample to the claim as stated: a bundle holding exactly the
six components named in the specification's data model (classifier,
transformer, label encoder, medians, means, outlier columns) still fails to
load — `load_model` raises a `KeyError` for `numerical_features` and the
facade is not marked ready. -/
theorem claim_C8_counterexample :
    (load_model (initPredictor (some sixComponentFile))).2
        = some (.keyError "numerical_features")
    ∧ (load_model (initPredictor (some sixComponentFile))).1.loadedFlag = false :=
  ⟨rfl, rfl⟩

/-- C8 witness: the amended theorem applied to an absent artifact and to a
concrete complete nine-component bundle. -/
theorem claim_C8_witness :
    load_model (initPredictor none) = (initPredictor none, some .fileNotFound)
    ∧ (load_model (initPredictor (some cFile))).1.loadedFlag = true :=
  ⟨claim_C8.1 (initPredictor none) rfl, claim_C8.2.2.2 (initPredictor (some cFile)) rfl⟩

/-- C9: every prediction operation called before a successful load fails
with the typed "Model not loaded" `RuntimeError` (never a
`None`-dereference crash), and `is_loaded` is false on a freshly constructed
state, unchanged by a failed load, and true exactly after a fully successful
load. -/
theorem claim_C9 :
    (∀ (p : Predictor) (w : WorkerFeatures),
        p.loadedFlag = false → p.predict_single w = .error .runtimeNotLoaded)
    ∧ (∀ (p : Predictor) (ws : List WorkerFeatures),
        p.loadedFlag = false → p.predict_batch ws = .error .runtimeNotLoaded)
    ∧ (∀ f, is_loaded (initPredictor f) = false)
    ∧ (∀ p e, (load_model p).2 = some e → is_loaded (load_model p).1 = is_loaded p)
    ∧ (∀ p, (load_model p).2 = none → is_loaded (load_model p).1 = true) := by
  refine ⟨?_, ?_, fun f => rfl, fun p e h => (load_model_cases p).2.1 e h,
    fun p h => (load_model_cases p).1 h⟩
  · intro p w h
    simp [Predictor.predict_single, h]
  · intro p ws h
    simp [Predictor.predict_batch, h]

/-- C9 witness: the theorem applied to the freshly initialized (never
loaded) predictor state and a concrete record. -/
theorem claim_C9_witness :
    (initPredictor none).predict_single cWorker = .error .runtimeNotLoaded
    ∧ (initPredictor none).predict_batch [cWorker] = .error .runtimeNotLoaded :=
  ⟨claim_C9.1 _ cWorker rfl, claim_C9.2.1 _ [cWorker] rfl⟩

/-- C10: the constructor loads the model itself and propagates load
failures, so every predictor instance that can be observed is loaded:
`is_loaded` is true on every successfully constructed instance, and the
"Model not loaded" branches of `predict_single` / `predict_batch` are
unreachable on such an instance. -/
theorem claim_C10 :
    (∀ f p, newPredictor f = .ok p → is_loaded p = true)
    ∧ (∀ f e, (load_model (initPredictor f)).2 = some e → newPredictor f = .error e)
    ∧ (∀ f p w, newPredictor f = .ok p → p.predict_single w ≠ .error .runtimeNotLoaded)
    ∧ (∀ f p ws, newPredictor f = .ok p → p.predict_batch ws ≠ .error .runtimeNotLoaded) := by
  have hflag : ∀ f p, newPredictor f = .ok p → p.loadedFlag = true := by
    intro f p h
    rw [newPredictor_ok_iff] at h
    rw [h.2]
    exact (load_model_cases _).1 h.1
  refine ⟨hflag, ?_, ?_, ?_⟩
  · intro f e h
    unfold newPredictor
    obtain ⟨q, hq⟩ : ∃ q, load_model (initPredictor f) = q := ⟨_, rfl⟩
    rw [hq] at h ⊢
    obtain ⟨q1, q2⟩ := q
    simp only at h
    rw [h]
  · intro f p w h
    exact predict_single_loaded_no_notReady p w (hflag f p h)
  · intro f p ws h
    exact predict_batch_loaded_no_notReady p ws (hflag f p h)

/-- C10 witness: the concrete nine-component bundle constructs an
already-loaded predictor on which prediction never reports "not loaded". -/
theorem claim_C10_witness :
    newPredictor (some cFile) = .ok cPred
    ∧ is_loaded cPred = true
    ∧ cPred.predict_single cWorker ≠ .error .runtimeNotLoaded :=
  ⟨rfl, claim_C10.1 (some cFile) cPred rfl, claim_C10.2.2.1 (some cFile) cPred cWorker rfl⟩

theorem lookupVal_map_if_other (r : Record) (c c' : String) (f : Val → Val) (h : c' ≠ c) :
    lookupVal (r.map (fun kv => if kv.1 = c then (kv.1, f kv.2) else kv)) c'
      = lookupVal r c' := by
  induction r with
  | nil => rfl
  | cons kv r ih =>
    obtain ⟨k, v⟩ := kv
    simp only [List.map_cons]
    by_cases hk : k = c
    · rw [if_pos hk]
      have hne : k ≠ c' := fun hc => h (hc ▸ hk)
      simp only [lookupVal, if_neg hne]
      exact ih
    · rw [if_neg hk]
      by_cases hk2 : k = c'
      · simp only [lookupVal, if_pos hk2]
      · simp only [lookupVal, if_neg hk2]
        exact ih

theorem lookupVal_map_if_self (r : Record) (c : String) (f : Val → Val) :
    lookupVal (r.map (fun kv => if kv.1 = c then (kv.1, f kv.2) else kv)) c
      = (lookupVal r c).map f := by
  induction r with
  | nil => rfl
  | cons kv r ih =>
    obtain ⟨k, v⟩ := kv
    simp only [List.map_cons]
    by_cases hk : k = c
    · rw [if_pos hk]
      simp only [lookupVal, if_pos hk]
      rfl
    · rw [if_neg hk]
      simp only [lookupVal, if_neg hk]
      exact ih

theorem mapCol_cols (df : Frame) (c : String) (f : Val → Val) :
    (df.mapCol c f).cols = df.cols := rfl

theorem getCol_mapCol_other (df : Frame) (c c' : String) (f : Val → Val) (h : c' ≠ c) :
    (df.mapCol c f).getCol c' = df.getCol c' := by
  unfold Frame.getCol Frame.mapCol
  by_cases hc : c' ∈ df.cols <;>

    simp [hc, List.map_map, Function.comp_def, lookupVal_map_if_other _ _ _ _ h]

theorem getCol_mapCol_self (df : Frame) (c : String) (f : Val → Val) (hf : f Val.na = Val.na) :
    (df.mapCol c f).getCol c = (df.getCol c).map (fun vs => vs.map f) := by
  unfold Frame.getCol Frame.mapCol
  by_cases hc : c ∈ df.cols
  · simp only [hc, if_pos, Option.map_some', List.map_map]
    refine congrArg some (List.map_congr_left (fun r _ => ?_))
    rw [Function.comp_apply, lookupVal_map_if_self]
    cases hl : lookupVal r c
    · simp [Function.comp, hl, hf]
    · simp [Function.comp, hl]
  · simp [hc]

/-- C7 counterexample to the claim as stated: there is no request record at
all whose end-of-month balance is negative and which passes boundary
validation — `app/models.py` constrains `end_of_month_balance` with
`ge=0`. -/
theorem claim_C7_counterexample :
    ¬ ∃ w : WorkerFeatures,
      (∃ q, w.end_of_month_balance = some q ∧ q < 0) ∧ workerFeaturesValid w = true := by
  rintro ⟨w, ⟨q, hq, hneg⟩, hv⟩
  unfold workerFeaturesValid at hv
  simp only [Bool.and_eq_true] at hv
  have hb := hv.2
  rw [hq] at hb
  simp only [checkGe, decide_eq_true_eq] at hb
  linarith

/-- C7 (amended): boundary validation rejects negative end-of-month
balances (`ge=0`), so a validated record always carries a nonnegative one;
within the normalizer itself `end_of_month_balance` is indeed never
clamped, while `num_savings_accounts` and `avg_loan_delay_days` are clipped
to zero cell-wise. -/
theorem claim_C7 :
    (∀ (w : WorkerFeatures) (q : ℚ), w.end_of_month_balance = some q →
        workerFeaturesValid w = true → 0 ≤ q)
    ∧ (∀ df : Frame, (fix_negative_values df).getCol "end_of_month_balance"
        = df.getCol "end_of_month_balance")
    ∧ (∀ df : Frame, "num_savings_accounts" ∈ df.cols →
        (fix_negative_values df).getCol "num_savings_accounts"
          = (df.getCol "num_savings_accounts").map (fun vs => vs.map clipLower0))
    ∧ (∀ df : Frame, "avg_loan_delay_days" ∈ df.cols →
        (fix_negative_values df).getCol "avg_loan_delay_days"
          = (df.getCol "avg_loan_delay_days").map (fun vs => vs.map clipLower0)) := by
  have hclipna : clipLower0 Val.na = Val.na := rfl
  refine ⟨?_, ?_, ?_, ?_⟩
  · intro w q hq hv
    unfold workerFeaturesValid at hv
    simp only [Bool.and_eq_true] at hv
    have hb := hv.2
    rw [hq] at hb
    simpa only [checkGe, decide_eq_true_eq] using hb
  · intro df
    have e1 : ("end_of_month_balance" : String) ≠ "num_savings_accounts" := by decide
    have e2 : ("end_of_month_balance" : String) ≠ "avg_loan_delay_days" := by decide
    unfold fix_negative_values
    dsimp only
    split <;> split <;>
      simp only [getCol_mapCol_other _ _ _ _ e1, getCol_mapCol_other _ _ _ _ e2]
  · intro df h1
    have e3 : ("num_savings_accounts" : String) ≠ "avg_loan_delay_days" := by decide
    unfold fix_negative_values
    dsimp only
    rw [if_pos h1]
    by_cases h2 : "avg_loan_delay_days" ∈ df.cols
    · rw [if_pos (show "avg_loan_delay_days" ∈ (df.mapCol "num_savings_accounts" clipLower0).cols from h2)]
      rw [getCol_mapCol_other _ _ _ _ e3, getCol_mapCol_self _ _ _ hclipna]
    · rw [if_neg (show "avg_loan_delay_days" ∉ (df.mapCol "num_savings_accounts" clipLower0).cols from h2)]
      rw [getCol_mapCol_self _ _ _ hclipna]
  · intro df h2
    have e4 : ("avg_loan_delay_days" : String) ≠ "num_savings_accounts" := by decide
    unfold fix_negative_values
    dsimp only
    by_cases h1 : "num_savings_accounts" ∈ df.cols
    · rw [if_pos h1]
      rw [if_pos (show "avg_loan_delay_days" ∈ (df.mapCol "num_savings_accounts" clipLower0).cols from h2)]
      rw [getCol_mapCol_self _ _ _ hclipna, getCol_mapCol_other _ _ _ _ e4]
    · rw [if_neg h1, if_pos h2, getCol_mapCol_self _ _ _ hclipna]

/-- C7 witness: the amended theorem applied to a concrete validated record
with a positive balance and to a concrete frame holding negative values. -/
theorem claim_C7_witness :
    ((0 : ℚ) ≤ 5)
    ∧ (fix_negative_values negValsFrame).getCol "end_of_month_balance"
        = negValsFrame.getCol "end_of_month_balance"
    ∧ (fix_negative_values negValsFrame).getCol "num_savings_accounts"
        = (negValsFrame.getCol "num_savings_accounts").map (fun vs => vs.map clipLower0) :=
  ⟨claim_C7.1 cWorkerPosBalance 5 rfl (by decide), claim_C7.2.1 negValsFrame,
   claim_C7.2.2.1 negValsFrame (by decide)⟩

/-- C6 counterexample to the claim as stated: normalization is NOT
idempotent. An already-normalized record (all declared feature columns
present in order, no missing values, credit-age string column long since
removed by the first pass) makes the pipeline fail with a `KeyError`,
because `preprocess_credit_age` unconditionally reads the
`credit_age_months` column. -/
theorem claim_C6_counterexample :
    preprocess_input_data normalizedFrame cMedians cMeans cOutliers
        ["worker_age", "credit_age_months_numeric"] []
      = .error (.keyError "credit_age_months") := rfl

/-- C6 (amended): re-applying the normalization pipeline to any frame that
no longer carries the `credit_age_months` string column — in particular any
already-normalized record — raises `KeyError("credit_age_months")` instead
of being a no-op. -/
theorem claim_C6 (df : Frame) (meds means : List (String × ℚ)) (outs nf cf : List String)
    (h : "credit_age_months" ∉ df.cols) :
    preprocess_input_data df meds means outs nf cf
      = .error (.keyError "credit_age_months") := by
  unfold preprocess_input_data preprocess_credit_age Frame.getCol
  rw [if_neg h]
  rfl

/-- C6 witness: the amended theorem applied to the concrete
already-normalized record. -/
theorem claim_C6_witness :
    preprocess_input_data normalizedFrame cMedians cMeans cOutliers
        ["worker_age", "credit_age_months_numeric"] []
      = .error (.keyError "credit_age_months") ∧
    "credit_age_months" ∉ normalizedFrame.cols :=
  ⟨claim_C6 normalizedFrame cMedians cMeans cOutliers
      ["worker_age", "credit_age_months_numeric"] [] (by decide), by decide⟩

/-! ## String lemmas for the credit-age parser -/

theorem replaceAllGo_fuel (p : Char) (ps rep : List Char) :
    ∀ (f1 : ℕ) (l : List Char) (f2 : ℕ), l.length ≤ f1 → l.length ≤ f2 →
      replaceAllGo p ps rep f1 l = replaceAllGo p ps rep f2 l := by
  intro f1
  induction f1 with
  | zero =>
    intro l f2 h1 _
    have hl : l = [] := List.length_eq_zero.mp (Nat.le_zero.mp h1)
    subst hl
    cases f2 <;> rfl
  | succ f ih =>
    intro l f2 h1 h2
    cases l with
    | nil => cases f2 <;> rfl
    | cons c cs =>
      cases f2 with
      | zero => simp at h2
      | succ f2 =>
        simp only [List.length_cons, Nat.succ_le_succ_iff] at h1 h2
        simp only [replaceAllGo]
        by_cases hs : startsWithL (p :: ps) (c :: cs) = true
        · rw [if_pos hs, if_pos hs]
          congr 1
          exact ih (cs.drop ps.length) f2
            (le_trans (by simp [List.length_drop]) h1)
            (le_trans (by simp [List.length_drop]) h2)
        · rw [if_neg hs, if_neg hs]
          congr 1
          exact ih cs f2 h1 h2

theorem replaceAllL_cons_pos (p : Char) (ps rep : List Char) (c : Char) (cs : List Char)
    (hs : startsWithL (p :: ps) (c :: cs) = true) :
    replaceAllL p ps rep (c :: cs) = rep ++ replaceAllL p ps rep (cs.drop ps.length) := by
  unfold replaceAllL
  simp only [List.length_cons, replaceAllGo, if_pos hs]
  congr 1
  exact replaceAllGo_fuel p ps rep cs.length (cs.drop ps.length) (cs.drop ps.length).length
    (by simp [List.length_drop]) le_rfl

theorem replaceAllL_cons_neg (p : Char) (ps rep : List Char) (c : Char) (cs : List Char)
    (hs : startsWithL (p :: ps) (c :: cs) = false) :
    replaceAllL p ps rep (c :: cs) = c :: replaceAllL p ps rep cs := by
  unfold replaceAllL
  simp only [List.length_cons, replaceAllGo, hs, Bool.false_eq_true, if_false]

theorem replaceAllL_skip (p : Char) (ps rep : List Char) (d rest : List Char)
    (h : ∀ c ∈ d, c ≠ p) :
    replaceAllL p ps rep (d ++ rest) = d ++ replaceAllL p ps rep rest := by
  induction d with
  | nil => rfl
  | cons c d ih =>
    have hc : c ≠ p := h c (by simp)
    have hb : (p == c) = false := beq_eq_false_iff_ne.mpr (fun h2 => hc h2.symm)
    have hs : startsWithL (p :: ps) (c :: (d ++ rest)) = false := by
      simp [startsWithL, hb]
    rw [List.cons_append, replaceAllL_cons_neg p ps rep c (d ++ rest) hs,
      ih (fun x hx => h x (by simp [hx]))]
    rfl

theorem pySplitSpace_skip (d : List Char) (h : ∀ c ∈ d, c ≠ ' ') :
    ∀ (rest h1 : List Char) (t1 : List (List Char)),
      pySplitSpace rest = h1 :: t1 →
      pySplitSpace (d ++ rest) = (d ++ h1) :: t1 := by
  induction d with
  | nil =>
    intro rest h1 t1 hr
    simpa using hr
  | cons c d ih =>
    intro rest h1 t1 hr
    have hc : c ≠ ' ' := h c (by simp)
    rw [List.cons_append]
    simp only [pySplitSpace, if_neg hc]
    rw [ih (fun x hx => h x (by simp [hx])) rest h1 t1 hr]
    rfl

theorem isDigit_ne_space {c : Char} (h : c.isDigit = true) : c ≠ ' ' := by
  intro he
  subst he
  exact absurd h (by decide)

theorem isDigit_ne {c c' : Char} (h : c.isDigit = true) (h2 : c'.isDigit = false) :
    c ≠ c' := by
  intro he
  subst he
  rw [h] at h2
  exact absurd h2 (by simp)

theorem pyNatDigits_all (d : List Char) (hne : d ≠ []) (hd : ∀ c ∈ d, c.isDigit = true) :
    pyNatDigits d = some (decDigitsVal d) := by
  unfold pyNatDigits
  rw [if_pos ⟨hne, List.all_eq_true.mpr hd⟩]

theorem dropWhile_space_no_space (l : List Char) (h : ∀ c ∈ l, c ≠ ' ') :
    l.dropWhile (fun c => decide (c = ' ')) = l := by
  cases l with
  | nil => rfl
  | cons c cs =>
    have hc : c ≠ ' ' := h c (by simp)
    simp [List.dropWhile_cons, hc]

theorem stripSpaces_no_space (d : List Char) (h : ∀ c ∈ d, c ≠ ' ') :
    stripSpaces d = d := by
  unfold stripSpaces
  rw [dropWhile_space_no_space d h,
    dropWhile_space_no_space d.reverse (fun c hc => h c (List.mem_reverse.mp hc)),
    List.reverse_reverse]

theorem pyInt_digits (d : List Char) (hne : d ≠ []) (hd : ∀ c ∈ d, c.isDigit = true) :
    pyInt d = some ((decDigitsVal d : ℤ)) := by
  unfold pyInt
  rw [stripSpaces_no_space d (fun c hc => isDigit_ne_space (hd c hc))]
  cases d with
  | nil => exact absurd rfl hne
  | cons c cs =>
    have h1 : c ≠ '-' := isDigit_ne (hd c (by simp)) (by decide)
    have h2 : c ≠ '+' := isDigit_ne (hd c (by simp)) (by decide)
    dsimp only
    rw [if_neg h1, if_neg h2, pyNatDigits_all _ hne hd]
    rfl

theorem creditAgeStrip_canonical (d1 d2 : List Char) (h2ne : d2 ≠ [])
    (hd1 : ∀ c ∈ d1, c.isDigit = true) (hd2 : ∀ c ∈ d2, c.isDigit = true) :
    creditAgeStrip (String.mk (d1 ++ (" y. ").data ++ d2 ++ (" m.").data))
      = d1 ++ ' ' :: d2 := by
  have hsp1 : ∀ c ∈ d1, c ≠ ' ' := fun c hc => isDigit_ne_space (hd1 c hc)
  have hsp2 : ∀ c ∈ d2, c ≠ ' ' := fun c hc => isDigit_ne_space (hd2 c hc)
  obtain ⟨e, es, rfl⟩ := List.exists_cons_of_ne_nil h2ne
  have he : e.isDigit = true := hd2 e (by simp)
  have hey : ('y' == e) = false :=
    beq_eq_false_iff_ne.mpr (fun h => (isDigit_ne he (by decide)) h.symm)
  have hem : ('m' == e) = false :=
    beq_eq_false_iff_ne.mpr (fun h => (isDigit_ne he (by decide)) h.symm)
  unfold creditAgeStrip
  have hdata : (String.mk (d1 ++ (" y. ").data ++ (e :: es) ++ (" m.").data)).data
      = d1 ++ (' ' :: 'y' :: '.' :: ' ' :: (e :: es ++ [' ', 'm', '.'])) := by
    show d1 ++ (" y. ").data ++ (e :: es) ++ (" m.").data = _
    simp [List.append_assoc]
  rw [hdata]
  have hA : replaceAllL ' ' ['y', '.'] []
      (d1 ++ (' ' :: 'y' :: '.' :: ' ' :: (e :: es ++ [' ', 'm', '.'])))
      = d1 ++ (' ' :: (e :: es ++ [' ', 'm', '.'])) := by
    rw [replaceAllL_skip _ _ _ _ _ hsp1]
    have hs1 : startsWithL [' ', 'y', '.'] (' ' :: 'y' :: '.' :: ' ' :: (e :: es ++ [' ', 'm', '.'])) = true := by
      simp [startsWithL]
    rw [replaceAllL_cons_pos _ _ _ _ _ hs1]
    simp only [List.length_cons, List.length_nil, List.drop_succ_cons, List.drop_zero,
      List.nil_append]
    have hs2 : startsWithL [' ', 'y', '.'] (' ' :: (e :: es ++ [' ', 'm', '.'])) = false := by
      simp [startsWithL, hey]
    rw [replaceAllL_cons_neg _ _ _ _ _ hs2]
    rw [replaceAllL_skip _ _ _ _ _ hsp2]
    have : replaceAllL ' ' ['y', '.'] [] [' ', 'm', '.'] = [' ', 'm', '.'] := by decide
    rw [this]
  rw [hA]
  rw [replaceAllL_skip _ _ _ _ _ hsp1]
  have hs3 : startsWithL [' ', 'm', '.'] (' ' :: (e :: es ++ [' ', 'm', '.'])) = false := by
    simp [startsWithL, hem]
  rw [replaceAllL_cons_neg _ _ _ _ _ hs3]
  rw [replaceAllL_skip _ _ _ _ _ hsp2]
  have : replaceAllL ' ' ['m', '.'] [] [' ', 'm', '.'] = [] := by decide
  rw [this]
  simp

theorem pySplit_canonical (d1 d2 : List Char)
    (hsp1 : ∀ c ∈ d1, c ≠ ' ') (hsp2 : ∀ c ∈ d2, c ≠ ' ') :
    pySplitSpace (d1 ++ ' ' :: d2) = [d1, d2] := by
  have h2 : pySplitSpace d2 = [d2] := by
    have h := pySplitSpace_skip d2 hsp2 [] [] [] rfl
    simpa using h
  have hsp : pySplitSpace (' ' :: d2) = [] :: [d2] := by
    simp [pySplitSpace, h2]
  have h := pySplitSpace_skip d1 hsp1 (' ' :: d2) [] [d2] hsp
  simpa using h

theorem convert_credit_age_canonical (d1 d2 : List Char) (h1ne : d1 ≠ []) (h2ne : d2 ≠ [])
    (hd1 : ∀ c ∈ d1, c.isDigit = true) (hd2 : ∀ c ∈ d2, c.isDigit = true) :
    convert_credit_age (.str (String.mk (d1 ++ (" y. ").data ++ d2 ++ (" m.").data)))
      = .num ((((decDigitsVal d1 : ℤ) * 12 + (decDigitsVal d2 : ℤ) : ℤ)) : ℚ) := by
  unfold convert_credit_age
  dsimp only
  rw [creditAgeStrip_canonical d1 d2 h2ne hd1 hd2,
    pySplit_canonical d1 d2 (fun c hc => isDigit_ne_space (hd1 c hc))
      (fun c hc => isDigit_ne_space (hd2 c hc))]
  simp [pyInt_digits d1 h1ne hd1, pyInt_digits d2 h2ne hd2]

/-- C2: a well-formed credit-age string `"<N> y. <M> m."` (decimal digit
strings for the year and month parts, whose denoted integers are `N` and
`M`) normalizes to exactly `N*12 + M`; an absent value stays explicitly
missing (`NaN`, not zero), a non-string cell likewise becomes missing, any
string whose pieces do not parse as integers becomes missing, and
`preprocess_credit_age` always removes the original `credit_age_months`
column from its output. -/
theorem claim_C2 :
    (∀ d1 d2 : List Char, d1 ≠ [] → d2 ≠ [] →
      (∀ c ∈ d1, c.isDigit = true) → (∀ c ∈ d2, c.isDigit = true) →
      convert_credit_age (.str (String.mk (d1 ++ (" y. ").data ++ d2 ++ (" m.").data)))
        = .num ((((decDigitsVal d1 : ℤ) * 12 + (decDigitsVal d2 : ℤ) : ℤ)) : ℚ))
    ∧ convert_credit_age .na = .na
    ∧ (∀ q : ℚ, convert_credit_age (.num q) = .na)
    ∧ (∀ s : String,
        (((pySplitSpace (creditAgeStrip s)).get? 0).bind pyInt = none
          ∨ ((pySplitSpace (creditAgeStrip s)).get? 1).bind pyInt = none) →
        convert_credit_age (.str s) = .na)
    ∧ (∀ df df2 : Frame, preprocess_credit_age df = .ok df2 →
        "credit_age_months" ∉ df2.cols) := by
  refine ⟨convert_credit_age_canonical, rfl, fun q => rfl, ?_, ?_⟩
  · intro s h
    unfold convert_credit_age
    dsimp only
    rcases h with h | h
    · cases h0 : (pySplitSpace (creditAgeStrip s)).get? 0 with
      | none => simp [h0]
      | some p0 =>
        rw [h0] at h
        simp only [Option.some_bind] at h
        cases h1 : (pySplitSpace (creditAgeStrip s)).get? 1 with
        | none => simp [h0, h1]
        | some p1 => simp [h0, h1, h]
    · cases h1 : (pySplitSpace (creditAgeStrip s)).get? 1 with
      | none =>
        cases h0 : (pySplitSpace (creditAgeStrip s)).get? 0 with
        | none => simp [h0, h1]
        | some p0 => simp [h0, h1]
      | some p1 =>
        rw [h1] at h
        simp only [Option.some_bind] at h
        cases h0 : (pySplitSpace (creditAgeStrip s)).get? 0 with
        | none => simp [h0, h1]
        | some p0 =>
          cases h2 : pyInt p0 with
          | none => simp [h0, h1, h2]
          | some y => simp [h0, h1, h2, h]
  · intro df df2 h
    unfold preprocess_credit_age at h
    split at h
    · exact absurd h (by simp)
    · rename_i vs heq
      have h2 : df2 = (df.setCol "credit_age_months_numeric"
          (vs.map convert_credit_age)).dropCol "credit_age_months" := by
        simpa using h.symm
      rw [h2]
      unfold Frame.dropCol
      simp [List.mem_filter]

/-- C2 witness: the theorem applied to `"20 y. 7 m."` (which yields exactly
`20*12 + 7 = 247`), to the unparsable string `"garbage"`, and to a concrete
frame losing its `credit_age_months` column. -/
theorem claim_C2_witness :
    convert_credit_age (.str "20 y. 7 m.") = .num 247
    ∧ convert_credit_age (.str "garbage") = .na := by
  constructor
  · have h := claim_C2.1 ("20".data) ("7".data) (by decide) (by decide) (by decide) (by decide)
    have he : String.mk (("20").data ++ (" y. ").data ++ ("7").data ++ (" m.").data)
        = "20 y. 7 m." := by decide
    rw [he] at h
    rw [h]
    decide
  · exact claim_C2.2.2.2.1 "garbage" (by decide)

theorem except_bind_ok {α β : Type} (x : Except Err α) (f : α → Except Err β) {v : β}
    (h : (x >>= f) = .ok v) : ∃ u, x = .ok u ∧ f u = .ok v := by
  cases x with
  | error e => simp [Bind.bind, Except.bind] at h
  | ok u => exact ⟨u, rfl, by simpa [Bind.bind, Except.bind] using h⟩

theorem selectCols_ok_cols (df : Frame) (names : List String) (out : Frame)
    (h : df.selectCols names = .ok out) : out.cols = names := by
  unfold Frame.selectCols at h
  split at h
  · exact absurd h (by simp)
  · have : Frame.mk names (df.rows.map (Frame.projectRow names)) = out := by
      simpa using h
    rw [← this]

theorem selectCols_error_of_missing (df : Frame) (names : List String)
    (h : ∃ c ∈ names, c ∉ df.cols) :
    ∃ c, df.selectCols names = .error (.keyError c) := by
  unfold Frame.selectCols
  cases hf : names.find? (fun c => decide (c ∉ df.cols)) with
  | some c => exact ⟨c, rfl⟩
  | none =>
    obtain ⟨c, hc, hnc⟩ := h
    rw [List.find?_eq_none] at hf
    exact absurd (by simpa using hf c hc) (by simpa using hnc)

theorem preprocess_ok_spec (p : Predictor) (df : Frame) (res : Frame × Option (List Val))
    (h : p.preprocess df = .ok res) :
    (∀ fn, p.feature_names = some fn → res.1.cols = fn)
    ∧ res.2 = (if "worker_id" ∈ df.cols then df.getCol "worker_id" else none) := by
  unfold Predictor.preprocess at h
  dsimp only at h
  split at h
  · rename_i meds means outs nf cf fn2 hmeds hmeans houts hnf hcf hfn2
    obtain ⟨processed, hp, h⟩ := except_bind_ok _ _ h
    obtain ⟨reordered, hr, h⟩ := except_bind_ok _ _ h
    have hres : res = (reordered,
        if "worker_id" ∈ df.cols then df.getCol "worker_id" else none) := by
      simpa [pure, Except.pure] using h.symm
    constructor
    · intro fn hfn
      rw [hfn2] at hfn
      have hfneq : fn2 = fn := by simpa using hfn
      subst hfneq
      rw [hres]
      exact selectCols_ok_cols _ _ _ hr
    · rw [hres]
  · exact absurd h (by simp)

theorem preprocess_missing_error (p : Predictor) (df df2 : Frame)
    (meds means : List (String × ℚ)) (outs nf cf fn : List String)
    (hmeds : p.train_medians = some meds) (hmeans : p.train_means = some means)
    (houts : p.numerical_cols_outliers = some outs) (hnf : p.numerical_features = some nf)
    (hcf : p.categorical_features = some cf) (hfn : p.feature_names = some fn)
    (hpid : preprocess_input_data
        (if "worker_id" ∈ df.cols then df.dropCol "worker_id" else df)
        meds means outs nf cf = .ok df2)
    (hmiss : ∃ c ∈ fn, c ∉ df2.cols) :
    ∃ c, p.preprocess df = .error (.keyError c) := by
  obtain ⟨c, hsel⟩ := selectCols_error_of_missing df2 fn hmiss
  refine ⟨c, ?_⟩
  unfold Predictor.preprocess
  dsimp only
  rw [hmeds, hmeans, houts, hnf, hcf, hfn]
  dsimp only
  rw [hpid]
  simp only [Bind.bind, Except.bind]
  rw [hsel]

/-- C5: the final projection step of the normalizer drops `worker_id`
(retaining its column separately for the response), reorders the remaining
columns to exactly the stored final feature order, and fails with a
`KeyError` — no partial result — whenever any expected final column is
absent after the earlier normalization steps. -/
theorem claim_C5 :
    (∀ (p : Predictor) (df : Frame) (res : Frame × Option (List Val)) (fn : List String),
        p.feature_names = some fn → p.preprocess df = .ok res → res.1.cols = fn)
    ∧ (∀ (p : Predictor) (df : Frame) (res : Frame × Option (List Val)),
        "worker_id" ∈ df.cols → p.preprocess df = .ok res →
        res.2 = df.getCol "worker_id")
    ∧ (∀ df : Frame, "worker_id" ∉ (df.dropCol "worker_id").cols)
    ∧ (∀ (p : Predictor) (df df2 : Frame) (meds means : List (String × ℚ))
        (outs nf cf fn : List String),
        p.train_medians = some meds → p.train_means = some means →
        p.numerical_cols_outliers = some outs → p.numerical_features = some nf →
        p.categorical_features = some cf → p.feature_names = some fn →
        preprocess_input_data
          (if "worker_id" ∈ df.cols then df.dropCol "worker_id" else df)
          meds means outs nf cf = .ok df2 →
        (∃ c ∈ fn, c ∉ df2.cols) →
        ∃ c, p.preprocess df = .error (.keyError c)) := by
  refine ⟨?_, ?_, ?_, preprocess_missing_error⟩
  · intro p df res fn hfn h
    exact (preprocess_ok_spec p df res h).1 fn hfn
  · intro p df res hw h
    rw [(preprocess_ok_spec p df res h).2, if_pos hw]
  · intro df
    unfold Frame.dropCol
    simp [List.mem_filter]

/-- C5 witness: the theorem applied to the concrete loaded predictor and a
concrete raw record (the projected frame's columns are exactly the stored
feature order and the worker-identifier column is retained), and to a
predictor whose stored feature order names a column the pipeline never
produces (projection fails with a `KeyError`). -/
theorem claim_C5_witness :
    (∃ res, cPred.preprocess (frameOfWorkers [cWorker]) = .ok res
      ∧ res.1.cols = cFeatureNames
      ∧ res.2 = (frameOfWorkers [cWorker]).getCol "worker_id")
    ∧ "worker_id" ∉ ((frameOfWorkers [cWorker]).dropCol "worker_id").cols
    ∧ (∃ c, cPredBadFeature.preprocess tinyCreditFrame = .error (.keyError c)) := by
  obtain ⟨res, hres⟩ : ∃ res, cPred.preprocess (frameOfWorkers [cWorker]) = .ok res :=
    ⟨_, rfl⟩
  refine ⟨⟨res, hres, ?_, ?_⟩, claim_C5.2.2.1 (frameOfWorkers [cWorker]), ?_⟩
  · exact claim_C5.1 cPred (frameOfWorkers [cWorker]) res cFeatureNames rfl hres
  · exact claim_C5.2.1 cPred (frameOfWorkers [cWorker]) res (by decide) hres
  · exact claim_C5.2.2.2 cPredBadFeature tinyCreditFrame tinyCreditFrameOut
      cMedians cMeans cOutliers cNumFeats cCatFeats ["nonexistent_feature"]
      rfl rfl rfl rfl rfl rfl rfl ⟨"nonexistent_feature", by decide, by decide⟩

/-! ## Cell-level lemmas about `fill_missing_values` -/

theorem lookupVal_fillColRow_na (r : Record) (c : String) (v : Val)
    (h : lookupVal r c = some Val.na) :
    lookupVal (Frame.fillColRow c v r) c = some v := by
  induction r with
  | nil => simp [lookupVal] at h
  | cons kv r ih =>
    obtain ⟨k, w⟩ := kv
    unfold Frame.fillColRow at *
    simp only [List.map_cons]
    by_cases hk : k = c
    · simp only [lookupVal, if_pos hk] at h
      have hw : w = Val.na := by simpa using h
      subst hw
      rw [if_pos ⟨hk, rfl⟩]
      simp [lookupVal, hk]
    · simp only [lookupVal, if_neg hk] at h
      by_cases hna : w = Val.na
      · subst hna
        rw [if_neg (by simp [hk])]
        simp only [lookupVal, if_neg hk]
        exact ih h
      · rw [if_neg (by simp [hna])]
        simp only [lookupVal, if_neg hk]
        exact ih h

theorem lookupVal_fillColRow_nonNa (r : Record) (c c' : String) (v u : Val)
    (h : lookupVal r c' = some u) (hu : u ≠ Val.na) :
    lookupVal (Frame.fillColRow c v r) c' = some u := by
  induction r with
  | nil => simp [lookupVal] at h
  | cons kv r ih =>
    obtain ⟨k, w⟩ := kv
    unfold Frame.fillColRow at *
    simp only [List.map_cons]
    by_cases hk : k = c'
    · simp only [lookupVal, if_pos hk] at h
      have hw : w = u := by simpa using h
      subst hw
      rw [if_neg (by intro hc; exact hu hc.2)]
      simp [lookupVal, hk]
    · simp only [lookupVal, if_neg hk] at h
      by_cases hcond : k = c ∧ w = Val.na
      · rw [if_pos hcond]
        simp only [lookupVal, if_neg hk]
        exact ih h
      · rw [if_neg hcond]
        simp only [lookupVal, if_neg hk]
        exact ih h

theorem lookupVal_fillColRow_other (r : Record) (c c' : String) (v : Val) (h : c' ≠ c) :
    lookupVal (Frame.fillColRow c v r) c' = lookupVal r c' := by
  induction r with
  | nil => rfl
  | cons kv r ih =>
    obtain ⟨k, w⟩ := kv
    unfold Frame.fillColRow at *
    simp only [List.map_cons]
    by_cases hcond : k = c ∧ w = Val.na
    · rw [if_pos hcond]
      have hk : k ≠ c' := by
        rw [hcond.1]
        exact fun hc => h hc.symm
      simp only [lookupVal, if_neg hk]
      exact ih
    · rw [if_neg hcond]
      by_cases hk : k = c'
      · simp only [lookupVal, if_pos hk]
      · simp only [lookupVal, if_neg hk]
        exact ih

theorem cell_fillCol_na (d : Frame) (c : String) (v : Val) (i : ℕ)
    (h : d.cell i c = some Val.na) : (d.fillCol c v).cell i c = some v := by
  unfold Frame.cell Frame.fillCol at *
  simp only [List.get?_map]
  cases hr : d.rows.get? i with
  | none => rw [hr] at h; simp at h
  | some r =>
    rw [hr] at h
    simp only [Option.map_some', Option.some_bind] at *
    exact lookupVal_fillColRow_na r c v h

theorem cell_fillCol_nonNa (d : Frame) (c c' : String) (v u : Val) (i : ℕ)
    (h : d.cell i c' = some u) (hu : u ≠ Val.na) :
    (d.fillCol c v).cell i c' = some u := by
  unfold Frame.cell Frame.fillCol at *
  simp only [List.get?_map]
  cases hr : d.rows.get? i with
  | none => rw [hr] at h; simp at h
  | some r =>
    rw [hr] at h
    simp only [Option.map_some', Option.some_bind] at *
    exact lookupVal_fillColRow_nonNa r c c' v u h hu

theorem cell_fillCol_other (d : Frame) (c c' : String) (v : Val) (i : ℕ) (h : c' ≠ c) :
    (d.fillCol c v).cell i c' = d.cell i c' := by
  unfold Frame.cell Frame.fillCol
  simp only [List.get?_map]
  cases hr : d.rows.get? i with
  | none => simp
  | some r =>
    simp only [Option.map_some', Option.some_bind]
    exact lookupVal_fillColRow_other r c c' v h

theorem hasNull_of_cell_na (d : Frame) (i : ℕ) (c : String)
    (h : d.cell i c = some Val.na) : d.hasNull c = true := by
  unfold Frame.cell at h
  unfold Frame.hasNull
  cases hr : d.rows.get? i with
  | none => rw [hr] at h; simp at h
  | some r =>
    rw [hr] at h
    simp only [Option.some_bind] at h
    rw [List.any_eq_true]
    exact ⟨r, List.get?_mem hr, by simp [h]⟩

theorem fillNumStep_cols (meds means : List (String × ℚ)) (outs : List String)
    (d : Frame) (col : String) : (fillNumStep meds means outs d col).cols = d.cols := by
  unfold fillNumStep
  split <;> rfl

theorem fillCatStep_cols (d : Frame) (col : String) :
    (fillCatStep d col).cols = d.cols := by
  unfold fillCatStep
  split <;> rfl

theorem foldl_fillNumStep_cols (meds means : List (String × ℚ)) (outs : List String) :
    ∀ (l : List String) (d : Frame),
      (l.foldl (fillNumStep meds means outs) d).cols = d.cols := by
  intro l
  induction l with
  | nil => intro d; rfl
  | cons c0 l ih =>
    intro d
    rw [List.foldl_cons, ih, fillNumStep_cols]

theorem cell_fillNumStep_nonNa (meds means : List (String × ℚ)) (outs : List String)
    (d : Frame) (col c' : String) (u : Val) (i : ℕ)
    (h : d.cell i c' = some u) (hu : u ≠ Val.na) :
    (fillNumStep meds means outs d col).cell i c' = some u := by
  unfold fillNumStep
  split
  · exact cell_fillCol_nonNa d col c' _ u i h hu
  · exact h

theorem cell_fillCatStep_nonNa (d : Frame) (col c' : String) (u : Val) (i : ℕ)
    (h : d.cell i c' = some u) (hu : u ≠ Val.na) :
    (fillCatStep d col).cell i c' = some u := by
  unfold fillCatStep
  split
  · exact cell_fillCol_nonNa d col c' _ u i h hu
  · exact h

theorem cell_fillNumStep_other (meds means : List (String × ℚ)) (outs : List String)
    (d : Frame) (col c' : String) (i : ℕ) (h : c' ≠ col) :
    (fillNumStep meds means outs d col).cell i c' = d.cell i c' := by
  unfold fillNumStep
  split
  · exact cell_fillCol_other d col c' _ i h
  · rfl

theorem cell_fillCatStep_other (d : Frame) (col c' : String) (i : ℕ) (h : c' ≠ col) :
    (fillCatStep d col).cell i c' = d.cell i c' := by
  unfold fillCatStep
  split
  · exact cell_fillCol_other d col c' _ i h
  · rfl

theorem cell_foldl_num_nonNa (meds means : List (String × ℚ)) (outs : List String)
    (c' : String) (u : Val) (i : ℕ) (hu : u ≠ Val.na) :
    ∀ (l : List String) (d : Frame), d.cell i c' = some u →
      (l.foldl (fillNumStep meds means outs) d).cell i c' = some u := by
  intro l
  induction l with
  | nil => intro d h; exact h
  | cons c0 l ih =>
    intro d h
    rw [List.foldl_cons]
    exact ih _ (cell_fillNumStep_nonNa meds means outs d c0 c' u i h hu)

theorem cell_foldl_cat_nonNa (c' : String) (u : Val) (i : ℕ) (hu : u ≠ Val.na) :
    ∀ (l : List String) (d : Frame), d.cell i c' = some u →
      (l.foldl fillCatStep d).cell i c' = some u := by
  intro l
  induction l with
  | nil => intro d h; exact h
  | cons c0 l ih =>
    intro d h
    rw [List.foldl_cons]
    exact ih _ (cell_fillCatStep_nonNa d c0 c' u i h hu)

theorem cell_foldl_num_notin (meds means : List (String × ℚ)) (outs : List String)
    (c' : String) (i : ℕ) :
    ∀ (l : List String) (d : Frame), c' ∉ l →
      (l.foldl (fillNumStep meds means outs) d).cell i c' = d.cell i c' := by
  intro l
  induction l with
  | nil => intro d _; rfl
  | cons c0 l ih =>
    intro d h
    rw [List.foldl_cons, ih _ (fun hm => h (by simp [hm])),
      cell_fillNumStep_other meds means outs d c0 c' i (fun he => h (by simp [he]))]

theorem numFillValue_median (df : Frame) (meds means : List (String × ℚ))
    (outs : List String) (col : String) (medv : ℚ)
    (houts : col ∈ outs) (hmed : lookupStat meds col = some medv) :
    numFillValue df meds means outs col = .num medv := by
  unfold numFillValue
  rw [if_pos houts, hmed]

theorem numFillValue_mean (df : Frame) (meds means : List (String × ℚ))
    (outs : List String) (col : String) (meanv : ℚ)
    (houts : col ∉ outs) (hmean : lookupStat means col = some meanv) :
    numFillValue df meds means outs col = .num meanv := by
  unfold numFillValue
  rw [if_neg houts, hmean]

theorem cell_foldl_num_filled (meds means : List (String × ℚ)) (outs : List String)
    (col : String) (fv : Val) (i : ℕ)
    (hfv : ∀ d : Frame, numFillValue d meds means outs col = fv) (hfvna : fv ≠ Val.na) :
    ∀ (l : List String) (d : Frame), col ∈ l → col ∈ d.cols →
      d.cell i col = some Val.na →
      (l.foldl (fillNumStep meds means outs) d).cell i col = some fv := by
  intro l
  induction l with
  | nil => intro d h; simp at h
  | cons c0 l ih =>
    intro d hmem hcols hna
    rw [List.foldl_cons]
    by_cases hc0 : c0 = col
    · subst hc0
      have hstep : fillNumStep meds means outs d c0
          = d.fillCol c0 (numFillValue d meds means outs c0) := by
        unfold fillNumStep
        rw [if_pos ⟨hcols, hasNull_of_cell_na d i c0 hna⟩]
      rw [hstep, hfv d]
      exact cell_foldl_num_nonNa meds means outs c0 fv i hfvna l _
        (cell_fillCol_na d c0 fv i hna)
    · have hmem2 : col ∈ l := by
        rcases List.mem_cons.mp hmem with h | h
        · exact absurd h.symm hc0
        · exact h
      exact ih _ hmem2 (by rw [fillNumStep_cols]; exact hcols)
        (by rw [cell_fillNumStep_other meds means outs d c0 col i
            (fun he => hc0 he.symm)]; exact hna)

theorem cell_foldl_cat_filled (i : ℕ) :
    ∀ (l : List String) (d : Frame) (col : String), col ∈ l → col ∈ d.cols →
      d.cell i col = some Val.na →
      (l.foldl fillCatStep d).cell i col = some (.str "Unknown") := by
  intro l
  induction l with
  | nil => intro d col h; simp at h
  | cons c0 l ih =>
    intro d col hmem hcols hna
    rw [List.foldl_cons]
    by_cases hc0 : c0 = col
    · subst hc0
      have hstep : fillCatStep d c0 = d.fillCol c0 (.str "Unknown") := by
        unfold fillCatStep
        rw [if_pos ⟨hcols, hasNull_of_cell_na d i c0 hna⟩]
      rw [hstep]
      exact cell_foldl_cat_nonNa c0 (.str "Unknown") i (by simp) l _
        (cell_fillCol_na d c0 _ i hna)
    · have hmem2 : col ∈ l := by
        rcases List.mem_cons.mp hmem with h | h
        · exact absurd h.symm hc0
        · exact h
      exact ih _ col hmem2 (by rw [fillCatStep_cols]; exact hcols)
        (by rw [cell_fillCatStep_other d c0 col i (fun he => hc0 he.symm)]; exact hna)

/-- C1 counterexample to the claim as stated: when the bundle's statistics
lack an entry for a declared outlier-prone numerical column, the code falls
back to `df[col].median()` computed over the INBOUND batch, so the value
filled into the very same record depends on the other records of the batch:
the record `{x: missing}` alone stays missing, while next to a record with
`x = 4` it is filled with `4`. -/
theorem claim_C1_counterexample :
    (fill_missing_values oneRowNaFrame ["x"] [] [] [] ["x"]).cell 0 "x" = some Val.na
    ∧ (fill_missing_values twoRowFrame ["x"] [] [] [] ["x"]).cell 0 "x"
        = some (Val.num 4) := ⟨rfl, rfl⟩

/-- C1 (amended): provided the bundle's statistics contain an entry for the
feature — as the training script guarantees for every declared numerical
feature — a missing numerical value is filled with exactly the bundle's
training median when the column is outlier-prone and exactly the bundle's
training mean otherwise, a missing categorical value becomes the literal
string `"Unknown"`, a non-missing cell is never modified, and these fill
values are independent of the other records of the inbound batch; without
such an entry the code falls back to the batch's own median/mean. -/
theorem claim_C1 :
    (∀ (df : Frame) (numC catC : List String) (meds means : List (String × ℚ))
        (outs : List String) (col : String) (medv : ℚ) (i : ℕ),
        col ∈ numC → col ∈ df.cols → col ∈ outs →
        lookupStat meds col = some medv →
        df.cell i col = some Val.na →
        (fill_missing_values df numC catC meds means outs).cell i col
          = some (.num medv))
    ∧ (∀ (df : Frame) (numC catC : List String) (meds means : List (String × ℚ))
        (outs : List String) (col : String) (meanv : ℚ) (i : ℕ),
        col ∈ numC → col ∈ df.cols → col ∉ outs →
        lookupStat means col = some meanv →
        df.cell i col = some Val.na →
        (fill_missing_values df numC catC meds means outs).cell i col
          = some (.num meanv))
    ∧ (∀ (df : Frame) (numC catC : List String) (meds means : List (String × ℚ))
        (outs : List String) (col : String) (i : ℕ),
        col ∈ catC → col ∉ numC → col ∈ df.cols →
        df.cell i col = some Val.na →
        (fill_missing_values df numC catC meds means outs).cell i col
          = some (.str "Unknown"))
    ∧ (∀ (df : Frame) (numC catC : List String) (meds means : List (String × ℚ))
        (outs : List String) (col : String) (u : Val) (i : ℕ),
        df.cell i col = some u → u ≠ Val.na →
        (fill_missing_values df numC catC meds means outs).cell i col = some u) := by
  refine ⟨?_, ?_, ?_, ?_⟩
  · intro df numC catC meds means outs col medv i hnum hcols houts hmed hna
    unfold fill_missing_values
    exact cell_foldl_cat_nonNa col (.num medv) i (by simp) catC _
      (cell_foldl_num_filled meds means outs col (.num medv) i
        (fun d => numFillValue_median d meds means outs col medv houts hmed)
        (by simp) numC df hnum hcols hna)
  · intro df numC catC meds means outs col meanv i hnum hcols houts hmean hna
    unfold fill_missing_values
    exact cell_foldl_cat_nonNa col (.num meanv) i (by simp) catC _
      (cell_foldl_num_filled meds means outs col (.num meanv) i
        (fun d => numFillValue_mean d meds means outs col meanv houts hmean)
        (by simp) numC df hnum hcols hna)
  · intro df numC catC meds means outs col i hcat hnum hcols hna
    unfold fill_missing_values
    refine cell_foldl_cat_filled i catC _ col hcat ?_ ?_
    · rw [foldl_fillNumStep_cols]
      exact hcols
    · rw [cell_foldl_num_notin meds means outs col i numC df hnum]
      exact hna
  · intro df numC catC meds means outs col u i hu hune
    unfold fill_missing_values
    exact cell_foldl_cat_nonNa col u i hune catC _
      (cell_foldl_num_nonNa meds means outs col u i hune numC df hu)

/-- C1 witness: the amended theorem applied to a concrete frame with one
missing cell in each of an outlier-prone numerical column (filled with the
stored median 10), a plain numerical column (filled with the stored mean
20) and a categorical column (filled with `"Unknown"`). -/
theorem claim_C1_witness :
    (fill_missing_values mixedNaFrame ["a", "b"] ["s"] [("a", 10)] [("b", 20)] ["a"]).cell
        0 "a" = some (.num 10)
    ∧ (fill_missing_values mixedNaFrame ["a", "b"] ["s"] [("a", 10)] [("b", 20)] ["a"]).cell
        0 "b" = some (.num 20)
    ∧ (fill_missing_values mixedNaFrame ["a", "b"] ["s"] [("a", 10)] [("b", 20)] ["a"]).cell
        0 "s" = some (.str "Unknown") :=
  ⟨claim_C1.1 mixedNaFrame ["a", "b"] ["s"] [("a", 10)] [("b", 20)] ["a"] "a" 10 0
      (by decide) (by decide) (by decide) (by decide) rfl,
   claim_C1.2.1 mixedNaFrame ["a", "b"] ["s"] [("a", 10)] [("b", 20)] ["a"] "b" 20 0
      (by decide) (by decide) (by decide) (by decide) rfl,
   claim_C1.2.2.1 mixedNaFrame ["a", "b"] ["s"] [("a", 10)] [("b", 20)] ["a"] "s" 0
      (by decide) (by decide) (by decide) rfl⟩

/-- C4: for both the single and the batch prediction operation, the keys of
every returned class-probability dictionary are exactly the label encoder's
stored class names, in the label encoder's class ordering (the dictionary
is built by zipping `label_encoder.classes_` with the probability vector),
so the key set is identical across all calls on the same loaded bundle. -/
theorem claim_C4 :
    (∀ (p : Predictor) (enc : SkLabelEncoder) (m : SkModel) (w : WorkerFeatures)
        (res : String × List (String × ℚ)),
        p.label_encoder = some enc → p.model = some m →
        (∀ x, (m.predict_proba x).length = enc.classes_.length) →
        p.predict_single w = .ok res →
        res.2.map Prod.fst = enc.classes_)
    ∧ (∀ (p : Predictor) (enc : SkLabelEncoder) (m : SkModel) (ws : List WorkerFeatures)
        (rs : List (String × List (String × ℚ))),
        p.label_encoder = some enc → p.model = some m →
        (∀ x, (m.predict_proba x).length = enc.classes_.length) →
        p.predict_batch ws = .ok rs →
        ∀ r ∈ rs, r.2.map Prod.fst = enc.classes_) := by
  constructor
  · intro p enc m w res henc hm hlen h
    unfold Predictor.predict_single at h
    split at h
    · exact absurd h (by simp)
    · split at h
      · rename_i m2 pre enc2 hm2 hpre henc2
        rw [hm] at hm2
        rw [henc] at henc2
        have hm2e : m = m2 := by simpa using hm2
        have henc2e : enc = enc2 := by simpa using henc2
        subst hm2e henc2e
        obtain ⟨pp, hpp, h⟩ := except_bind_ok _ _ h
        dsimp only at h
        split at h
        · rename_i prediction probabilities hpred hprob
          have hres : res = (inverse_transform enc prediction,
              enc.classes_.zip probabilities) := by
            simpa [pure, Except.pure] using h.symm
          rw [hres]
          obtain ⟨x, hx, hpx⟩ : ∃ x, (pp.1.rows.map pre.transform).get? 0 = some x
              ∧ probabilities = m.predict_proba x := by
            rw [List.get?_map] at hprob
            cases hX : (pp.1.rows.map pre.transform).get? 0 with
            | none => rw [hX] at hprob; exact absurd hprob (by simp)
            | some x =>
              rw [hX] at hprob
              exact ⟨x, rfl, by simpa using hprob.symm⟩
          rw [hpx]
          exact List.map_fst_zip _ _ (le_of_eq (hlen x).symm)
        · exact absurd h (by simp)
      · exact absurd h (by simp)
  · intro p enc m ws rs henc hm hlen h
    unfold Predictor.predict_batch at h
    split at h
    · exact absurd h (by simp)
    · split at h
      · rename_i m2 pre enc2 hm2 hpre henc2
        rw [hm] at hm2
        rw [henc] at henc2
        have hm2e : m = m2 := by simpa using hm2
        have henc2e : enc = enc2 := by simpa using henc2
        subst hm2e henc2e
        obtain ⟨pp, hpp, h⟩ := except_bind_ok _ _ h
        have hrs : rs = ((((pp.1.rows.map pre.transform).map m.predict).map
              (inverse_transform enc)).zip
              ((pp.1.rows.map pre.transform).map m.predict_proba)).map
              (fun z => (z.1, enc.classes_.zip z.2)) := by
          simpa [pure, Except.pure] using h.symm
        intro r hr
        rw [hrs] at hr
        obtain ⟨z, hz, hrz⟩ := List.mem_map.mp hr
        have hz2 := (List.of_mem_zip hz).2
        obtain ⟨x, _, hx⟩ := List.mem_map.mp hz2
        rw [← hrz]
        dsimp only
        rw [← hx]
        exact List.map_fst_zip _ _ (le_of_eq (hlen x).symm)
      · exact absurd h (by simp)

/-- C4 witness: the theorem applied to the concrete loaded predictor
(classifier probability vectors of length three, matching the three stored
class names) for one single-record call and one two-record batch call. -/
theorem claim_C4_witness :
    (∃ res, cPred.predict_single cWorker = .ok res
      ∧ res.2.map Prod.fst = cEnc.classes_)
    ∧ (∃ rs, cPred.predict_batch [cWorker, cWorkerEmpty] = .ok rs
      ∧ ∀ r ∈ rs, r.2.map Prod.fst = cEnc.classes_) := by
  obtain ⟨res, hres⟩ : ∃ res, cPred.predict_single cWorker = .ok res := ⟨_, rfl⟩
  obtain ⟨rs, hrs⟩ : ∃ rs, cPred.predict_batch [cWorker, cWorkerEmpty] = .ok rs := ⟨_, rfl⟩
  exact ⟨⟨res, hres, claim_C4.1 cPred cEnc cModel cWorker res rfl rfl (fun x => rfl) hres⟩,
    ⟨rs, hrs, claim_C4.2 cPred cEnc cModel [cWorker, cWorkerEmpty] rs rfl rfl
      (fun x => rfl) hrs⟩⟩

/-! ## Row-level factorization of the pipeline (towards batch = map single) -/

theorem zipWith_map_self {α β γ : Type} (f : α → β → γ) (g : α → β) (l : List α) :
    List.zipWith f l (l.map g) = l.map (fun x => f x (g x)) := by
  induction l with
  | nil => rfl
  | cons a l ih => simp [ih]

theorem rowKeys_filter (r : Record) (c : String) :
    rowKeys (r.filter (fun kv => kv.1 ≠ c)) = (rowKeys r).filter (fun k => k ≠ c) := by
  induction r with
  | nil => rfl
  | cons kv r ih =>
    obtain ⟨k, v⟩ := kv
    by_cases hk : k = c <;> simp [rowKeys, List.filter_cons, hk] at * <;> simp [ih]

theorem rowKeys_setEntry (r : Record) (c : String) (v : Val) :
    rowKeys (Frame.setEntry r c v) = rowKeys r := by
  unfold Frame.setEntry rowKeys
  rw [List.map_map]
  refine List.map_congr_left (fun kv _ => ?_)
  by_cases hk : kv.1 = c <;> simp [hk, Function.comp]

theorem rowKeys_append_single (r : Record) (c : String) (v : Val) :
    rowKeys (r ++ [(c, v)]) = rowKeys r ++ [c] := by
  simp [rowKeys]

theorem rowKeys_fillColRow (r : Record) (c : String) (v : Val) :
    rowKeys (Frame.fillColRow c v r) = rowKeys r := by
  unfold Frame.fillColRow rowKeys
  rw [List.map_map]
  refine List.map_congr_left (fun kv _ => ?_)
  by_cases hk : kv.1 = c ∧ kv.2 = Val.na <;> simp [hk, Function.comp]

theorem rowKeys_clipRow (r : Record) (c : String) :
    rowKeys (clipRow c r) = rowKeys r := by
  unfold clipRow rowKeys
  rw [List.map_map]
  refine List.map_congr_left (fun kv _ => ?_)
  by_cases hk : kv.1 = c <;> simp [hk, Function.comp]

theorem lookupVal_none_of_not_mem (r : Record) (c : String) (h : c ∉ rowKeys r) :
    lookupVal r c = none := by
  induction r with
  | nil => rfl
  | cons kv r ih =>
    obtain ⟨k, v⟩ := kv
    have hk : k ≠ c := fun he => h (by simp [rowKeys, he])
    simp only [lookupVal, if_neg hk]
    exact ih (fun hm => h (by simp [rowKeys] at hm ⊢; exact .inr hm))

theorem fillColRow_absent (r : Record) (col : String) (v : Val)
    (h : col ∉ rowKeys r) : Frame.fillColRow col v r = r := by
  induction r with
  | nil => rfl
  | cons kv r ih =>
    obtain ⟨k, w⟩ := kv
    have hk : k ≠ col := fun he => h (by simp [rowKeys, he])
    unfold Frame.fillColRow at *
    simp only [List.map_cons]
    rw [if_neg (fun hc => hk hc.1)]
    rw [ih (fun hm => h (by simp [rowKeys] at hm ⊢; exact .inr hm))]

theorem fillColRow_id_nodup (r : Record) (col : String) (v : Val)
    (hnd : (rowKeys r).Nodup) (h : (lookupVal r col).getD Val.na ≠ Val.na) :
    Frame.fillColRow col v r = r := by
  induction r with
  | nil => rfl
  | cons kv r ih =>
    obtain ⟨k, w⟩ := kv
    simp only [rowKeys, List.map_cons, List.nodup_cons] at hnd
    by_cases hk : k = col
    · subst hk
      simp only [lookupVal, if_pos rfl, Option.getD_some] at h
      unfold Frame.fillColRow
      simp only [List.map_cons]
      rw [if_neg (fun hc => h hc.2)]
      have habs := fillColRow_absent r k v hnd.1
      unfold Frame.fillColRow at habs
      rw [habs]
    · simp only [lookupVal, if_neg hk] at h
      unfold Frame.fillColRow at *
      simp only [List.map_cons]
      rw [if_neg (fun hc => hk hc.1)]
      rw [ih hnd.2 h]

theorem mapM_ok {α β : Type} (f : α → Except Err β) (g : α → β)
    (h : ∀ a, f a = .ok (g a)) : ∀ l : List α, l.mapM f = .ok (l.map g) := by
  intro l
  induction l with
  | nil => rfl
  | cons a l ih =>
    rw [List.mapM_cons, h a, ih]
    rfl

theorem mapM_error_head {α β : Type} (f : α → Except Err β) (a : α) (l : List α) (e : Err)
    (h : f a = .error e) : (a :: l).mapM f = .error e := by
  rw [List.mapM_cons, h]
  rfl

theorem mapM_ok_length {α β : Type} (f : α → Except Err β) :
    ∀ (l : List α) (rs : List β), l.mapM f = .ok rs → rs.length = l.length := by
  intro l
  induction l with
  | nil =>
    intro rs h
    have : rs = [] := by
      simpa [List.mapM, List.mapM.loop, pure, Except.pure] using h.symm
    simp [this]
  | cons a l ih =>
    intro rs h
    rw [List.mapM_cons] at h
    obtain ⟨b, hb, h⟩ := except_bind_ok _ _ h
    obtain ⟨bs, hbs, h⟩ := except_bind_ok _ _ h
    have : rs = b :: bs := by simpa [pure, Except.pure] using h.symm
    simp [this, ih bs hbs]

theorem rowKeys_fillNumRow (meds means : List (String × ℚ)) (outs C : List String)
    (r : Record) (col : String) :
    rowKeys (fillNumRow meds means outs C r col) = rowKeys r := by
  unfold fillNumRow
  by_cases hc : col ∈ C <;> simp [hc, rowKeys_fillColRow]

theorem rowKeys_fillCatRow (C : List String) (r : Record) (col : String) :
    rowKeys (fillCatRow C r col) = rowKeys r := by
  unfold fillCatRow
  by_cases hc : col ∈ C <;> simp [hc, rowKeys_fillColRow]

theorem rowKeys_creditRow (C : List String) (r : Record) (h : rowKeys r = C) :
    rowKeys (creditRow C r) = creditCols C := by
  unfold creditRow creditCols
  by_cases hn : "credit_age_months_numeric" ∈ C
  · rw [if_pos hn, if_pos hn, rowKeys_filter, rowKeys_setEntry, h]
  · rw [if_neg hn, if_neg hn, rowKeys_filter, rowKeys_append_single, h]

theorem rowKeys_negRow (C' : List String) (r : Record) :
    rowKeys (negRow C' r) = rowKeys r := by
  unfold negRow
  by_cases h1 : "num_savings_accounts" ∈ C' <;>
    by_cases h2 : "avg_loan_delay_days" ∈ C' <;>
    simp [h1, h2, rowKeys_clipRow]

theorem nodup_creditCols (C : List String) (h : C.Nodup) : (creditCols C).Nodup := by
  unfold creditCols
  by_cases hn : "credit_age_months_numeric" ∈ C
  · rw [if_pos hn]
    exact h.filter _
  · rw [if_neg hn]
    refine List.Nodup.filter _ ?_
    rw [List.nodup_append]
    exact ⟨h, List.nodup_singleton _, by simpa using hn⟩

theorem preprocess_credit_age_factor (C : List String) (rs : List Record)
    (hC : "credit_age_months" ∈ C) :
    preprocess_credit_age ⟨C, rs⟩ = .ok ⟨creditCols C, rs.map (creditRow C)⟩ := by
  unfold preprocess_credit_age Frame.getCol
  dsimp only
  rw [if_pos hC]
  unfold Frame.setCol Frame.dropCol
  dsimp only
  unfold creditCols creditRow creditRowVal Frame.setEntry
  by_cases hn : "credit_age_months_numeric" ∈ C <;>
    simp [hn, List.map_map, zipWith_map_self, Function.comp]

theorem fix_negative_values_factor (C : List String) (rs : List Record) :
    fix_negative_values ⟨C, rs⟩ = ⟨C, rs.map (negRow C)⟩ := by
  unfold fix_negative_values negRow Frame.mapCol clipRow
  by_cases h1 : "num_savings_accounts" ∈ C <;>
    by_cases h2 : "avg_loan_delay_days" ∈ C <;>
    simp [h1, h2, List.map_map, Function.comp]

theorem fillNumStep_factor (meds means : List (String × ℚ)) (outs C : List String)
    (rs : List Record) (col : String)
    (hnd : C.Nodup) (hwf : ∀ r ∈ rs, rowKeys r = C)
    (hmed : (lookupStat meds col).isSome = true)
    (hmean : (lookupStat means col).isSome = true) :
    fillNumStep meds means outs ⟨C, rs⟩ col
      = ⟨C, rs.map (fun r => fillNumRow meds means outs C r col)⟩ := by
  have hfv : numFillValue ⟨C, rs⟩ meds means outs col = statFillValue meds means outs col := by
    unfold numFillValue statFillValue
    obtain ⟨mv, hmv⟩ := Option.isSome_iff_exists.mp hmed
    obtain ⟨nv, hnv⟩ := Option.isSome_iff_exists.mp hmean
    by_cases ho : col ∈ outs
    · rw [if_pos ho, if_pos ho, hmv]
    · rw [if_neg ho, if_neg ho, hnv]
  unfold fillNumStep fillNumRow
  by_cases hc : col ∈ C
  · dsimp only
    by_cases hnull : Frame.hasNull ⟨C, rs⟩ col = true
    · rw [if_pos ⟨hc, hnull⟩, hfv]
      unfold Frame.fillCol
      refine congrArg (Frame.mk C) (List.map_congr_left (fun r _ => ?_))
      rw [if_pos hc]
    · rw [if_neg (fun hco => hnull hco.2)]
      have hall : ∀ r ∈ rs, (lookupVal r col).getD Val.na ≠ Val.na := by
        intro r hr hcon
        refine hnull ?_
        unfold Frame.hasNull
        rw [List.any_eq_true]
        exact ⟨r, hr, by simp [hcon]⟩
      refine congrArg (Frame.mk C) ?_
      symm
      calc rs.map (fun r => if col ∈ C then
              Frame.fillColRow col (statFillValue meds means outs col) r else r)
          = rs.map id := List.map_congr_left (fun r hr => by
            rw [if_pos hc]
            exact fillColRow_id_nodup r col _ (by rw [hwf r hr]; exact hnd) (hall r hr))
        _ = rs := List.map_id rs
  · dsimp only
    rw [if_neg (fun hco => hc hco.1)]
    refine congrArg (Frame.mk C) ?_
    symm
    calc rs.map (fun r => if col ∈ C then
            Frame.fillColRow col (statFillValue meds means outs col) r else r)
        = rs.map id := List.map_congr_left (fun r _ => by rw [if_neg hc]; rfl)
      _ = rs := List.map_id rs

theorem fillCatStep_factor (C : List String) (rs : List Record) (col : String)
    (hnd : C.Nodup) (hwf : ∀ r ∈ rs, rowKeys r = C) :
    fillCatStep ⟨C, rs⟩ col = ⟨C, rs.map (fun r => fillCatRow C r col)⟩ := by
  unfold fillCatStep fillCatRow
  by_cases hc : col ∈ C
  · dsimp only
    by_cases hnull : Frame.hasNull ⟨C, rs⟩ col = true
    · rw [if_pos ⟨hc, hnull⟩]
      unfold Frame.fillCol
      refine congrArg (Frame.mk C) (List.map_congr_left (fun r _ => ?_))
      rw [if_pos hc]
    · rw [if_neg (fun hco => hnull hco.2)]
      have hall : ∀ r ∈ rs, (lookupVal r col).getD Val.na ≠ Val.na := by
        intro r hr hcon
        refine hnull ?_
        unfold Frame.hasNull
        rw [List.any_eq_true]
        exact ⟨r, hr, by simp [hcon]⟩
      refine congrArg (Frame.mk C) ?_
      symm
      calc rs.map (fun r => if col ∈ C then Frame.fillColRow col (.str "Unknown") r else r)
          = rs.map id := List.map_congr_left (fun r hr => by
            rw [if_pos hc]
            exact fillColRow_id_nodup r col _ (by rw [hwf r hr]; exact hnd) (hall r hr))
        _ = rs := List.map_id rs
  · dsimp only
    rw [if_neg (fun hco => hc hco.1)]
    refine congrArg (Frame.mk C) ?_
    symm
    calc rs.map (fun r => if col ∈ C then Frame.fillColRow col (.str "Unknown") r else r)
        = rs.map id := List.map_congr_left (fun r _ => by rw [if_neg hc]; rfl)
      _ = rs := List.map_id rs

theorem foldl_fillNumStep_factor (meds means : List (String × ℚ)) (outs : List String) :
    ∀ (l : List String) (C : List String) (rs : List Record),
      C.Nodup → (∀ r ∈ rs, rowKeys r = C) →
      (∀ c ∈ l, (lookupStat meds c).isSome = true ∧ (lookupStat means c).isSome = true) →
      l.foldl (fillNumStep meds means outs) ⟨C, rs⟩
        = ⟨C, rs.map (fun r => l.foldl (fillNumRow meds means outs C) r)⟩ := by
  intro l
  induction l with
  | nil =>
    intro C rs _ _ _
    simp
  | cons c0 l ih =>
    intro C rs hnd hwf hst
    rw [List.foldl_cons,
      fillNumStep_factor meds means outs C rs c0 hnd hwf (hst c0 (by simp)).1
        (hst c0 (by simp)).2,
      ih C _ hnd
        (fun r' hr' => by
          obtain ⟨r, hr, rfl⟩ := List.mem_map.mp hr'
          rw [rowKeys_fillNumRow]
          exact hwf r hr)
        (fun c hc => hst c (by simp [hc]))]
    refine congrArg (Frame.mk C) ?_
    rw [List.map_map]
    exact List.map_congr_left (fun r _ => by rw [Function.comp_apply, List.foldl_cons])

theorem foldl_fillCatStep_factor :
    ∀ (l : List String) (C : List String) (rs : List Record),
      C.Nodup → (∀ r ∈ rs, rowKeys r = C) →
      l.foldl fillCatStep ⟨C, rs⟩
        = ⟨C, rs.map (fun r => l.foldl (fillCatRow C) r)⟩ := by
  intro l
  induction l with
  | nil =>
    intro C rs _ _
    simp
  | cons c0 l ih =>
    intro C rs hnd hwf
    rw [List.foldl_cons, fillCatStep_factor C rs c0 hnd hwf,
      ih C _ hnd
        (fun r' hr' => by
          obtain ⟨r, hr, rfl⟩ := List.mem_map.mp hr'
          rw [rowKeys_fillCatRow]
          exact hwf r hr)]
    refine congrArg (Frame.mk C) ?_
    rw [List.map_map]
    exact List.map_congr_left (fun r _ => by rw [Function.comp_apply, List.foldl_cons])

theorem fill_factor (meds means : List (String × ℚ)) (outs numC catC C : List String)
    (rs : List Record) (hnd : C.Nodup) (hwf : ∀ r ∈ rs, rowKeys r = C)
    (hst : statsTotal meds means numC) :
    fill_missing_values ⟨C, rs⟩ numC catC meds means outs
      = ⟨C, rs.map (fillRow numC catC meds means outs C)⟩ := by
  unfold fill_missing_values fillRow
  rw [foldl_fillNumStep_factor meds means outs numC C rs hnd hwf (fun c hc => hst c hc),
    foldl_fillCatStep_factor catC C _ hnd
      (fun r' hr' => by
        obtain ⟨r, hr, rfl⟩ := List.mem_map.mp hr'
        have : ∀ (l : List String) (r0 : Record),
            rowKeys (l.foldl (fillNumRow meds means outs C) r0) = rowKeys r0 := by
          intro l
          induction l with
          | nil => intro r0; rfl
          | cons a l ihl =>
            intro r0
            rw [List.foldl_cons, ihl, rowKeys_fillNumRow]
        rw [this]
        exact hwf r hr)]
  refine congrArg (Frame.mk C) ?_
  rw [List.map_map]
  rfl

theorem preprocess_input_data_factor (meds means : List (String × ℚ))
    (outs numC catC C : List String) (rs : List Record)
    (hC : "credit_age_months" ∈ C) (hnd : C.Nodup) (hwf : ∀ r ∈ rs, rowKeys r = C)
    (hst : statsTotal meds means numC) :
    preprocess_input_data ⟨C, rs⟩ meds means outs numC catC
      = .ok ⟨creditCols C, rs.map (fun r =>
          fillRow numC catC meds means outs (creditCols C)
            (negRow (creditCols C) (creditRow C r)))⟩ := by
  unfold preprocess_input_data
  rw [preprocess_credit_age_factor C rs hC]
  simp only [Bind.bind, Except.bind]
  rw [fix_negative_values_factor, List.map_map,
    fill_factor meds means outs numC catC (creditCols C) _ (nodup_creditCols C hnd)
      (fun r' hr' => by
        obtain ⟨r, hr, rfl⟩ := List.mem_map.mp hr'
        rw [Function.comp_apply, rowKeys_negRow]
        exact rowKeys_creditRow C r (hwf r hr)) hst]
  simp only [pure, Except.pure, List.map_map]
  rfl

theorem zip_map_same {α β γ : Type} (f : α → β) (g : α → γ) (l : List α) :
    (l.map f).zip (l.map g) = l.map (fun x => (f x, g x)) := by
  induction l with
  | nil => rfl
  | cons a l ih => simp [ih]

theorem rowKeys_model_dump (w : WorkerFeatures) :
    rowKeys (model_dump w) = workerFieldNames := rfl

theorem preprocess_attr (p : Predictor) (df : Frame)
    (h : p.train_medians = none ∨ p.train_means = none ∨
        p.numerical_cols_outliers = none ∨ p.numerical_features = none ∨
        p.categorical_features = none ∨ p.feature_names = none) :
    p.preprocess df = .error .attributeError := by
  unfold Predictor.preprocess
  dsimp only
  cases h1 : p.train_medians <;> cases h2 : p.train_means <;>
    cases h3 : p.numerical_cols_outliers <;> cases h4 : p.numerical_features <;>
    cases h5 : p.categorical_features <;> cases h6 : p.feature_names <;>
    first
    | rfl
    | (rcases h with h | h | h | h | h | h <;> simp_all)

theorem predict_single_attr (p : Predictor) (w : WorkerFeatures) (hl : p.loadedFlag = true)
    (h : p.model = none ∨ p.preprocessor = none ∨ p.label_encoder = none) :
    p.predict_single w = .error .attributeError := by
  unfold Predictor.predict_single
  rw [if_neg (show ¬(p.loadedFlag = false) by simp [hl])]
  cases hm : p.model <;> cases hpre : p.preprocessor <;> cases henc : p.label_encoder <;>
    first
    | rfl
    | (rcases h with h | h | h <;> simp_all)

theorem predict_batch_attr (p : Predictor) (ws : List WorkerFeatures)
    (hl : p.loadedFlag = true)
    (h : p.model = none ∨ p.preprocessor = none ∨ p.label_encoder = none) :
    p.predict_batch ws = .error .attributeError := by
  unfold Predictor.predict_batch
  rw [if_neg (show ¬(p.loadedFlag = false) by simp [hl])]
  cases hm : p.model <;> cases hpre : p.preprocessor <;> cases henc : p.label_encoder <;>
    first
    | rfl
    | (rcases h with h | h | h <;> simp_all)

theorem predict_single_preprocess_error (p : Predictor) (w : WorkerFeatures)
    (m : SkModel) (pre : SkColumnTransformer) (enc : SkLabelEncoder) (e : Err)
    (hl : p.loadedFlag = true) (hm : p.model = some m) (hpre : p.preprocessor = some pre)
    (henc : p.label_encoder = some enc)
    (hpp : p.preprocess (frameOfWorkers [w]) = .error e) :
    p.predict_single w = .error e := by
  unfold Predictor.predict_single
  rw [if_neg (show ¬(p.loadedFlag = false) by simp [hl]), hm, hpre, henc]
  dsimp only
  rw [hpp]
  rfl

theorem predict_batch_preprocess_error (p : Predictor) (ws : List WorkerFeatures)
    (m : SkModel) (pre : SkColumnTransformer) (enc : SkLabelEncoder) (e : Err)
    (hl : p.loadedFlag = true) (hm : p.model = some m) (hpre : p.preprocessor = some pre)
    (henc : p.label_encoder = some enc)
    (hpp : p.preprocess (frameOfWorkers ws) = .error e) :
    p.predict_batch ws = .error e := by
  unfold Predictor.predict_batch
  rw [if_neg (show ¬(p.loadedFlag = false) by simp [hl]), hm, hpre, henc]
  dsimp only
  rw [hpp]
  rfl

theorem preprocess_worker_factor (p : Predictor)
    (meds means : List (String × ℚ)) (outs nf cf fn : List String)
    (h1 : p.train_medians = some meds) (h2 : p.train_means = some means)
    (h3 : p.numerical_cols_outliers = some outs) (h4 : p.numerical_features = some nf)
    (h5 : p.categorical_features = some cf) (h6 : p.feature_names = some fn)
    (hst : statsTotal meds means nf) (w0 : WorkerFeatures) (ws : List WorkerFeatures) :
    p.preprocess (frameOfWorkers (w0 :: ws))
      = match fn.find? (fun c => decide (c ∉ pipeCols)) with
        | some c => .error (.keyError c)
        | none => .ok (⟨fn, ((w0 :: ws).map model_dump).map
            (fun r => Frame.projectRow fn (pipeRow meds means outs nf cf r))⟩,
            some (((w0 :: ws).map model_dump).map
              (fun r => (lookupVal r "worker_id").getD Val.na))) := by
  have hwid : ("worker_id" : String) ∈ workerFieldNames := by decide
  unfold Predictor.preprocess frameOfWorkers
  dsimp only
  rw [h1, h2, h3, h4, h5, h6]
  dsimp only
  simp only [List.isEmpty_cons, Bool.false_eq_true, if_false]
  rw [if_pos hwid, if_pos hwid]
  unfold Frame.dropCol Frame.getCol
  dsimp only
  rw [if_pos hwid]
  rw [preprocess_input_data_factor meds means outs nf cf
      (workerFieldNames.filter (fun k => k ≠ "worker_id"))
      (((w0 :: ws).map model_dump).map
        (fun r => r.filter (fun kv => kv.1 ≠ "worker_id")))
      (by decide) (by decide)
      (fun r' hr' => by
        obtain ⟨r, hr, rfl⟩ := List.mem_map.mp hr'
        obtain ⟨w, _, rfl⟩ := List.mem_map.mp hr
        rw [rowKeys_filter, rowKeys_model_dump])
      hst]
  simp only [Bind.bind, Except.bind]
  unfold Frame.selectCols pipeCols workerCols1 pipeRow
  dsimp only
  cases hfind : fn.find?
      (fun c => decide (c ∉ creditCols (workerFieldNames.filter (fun k => k ≠ "worker_id")))) with
  | some c => rfl
  | none =>
    simp only [pure, Except.pure]
    refine congrArg _ (congrArg (fun z => (z, _)) (congrArg (Frame.mk fn) ?_))
    rw [List.map_map, List.map_map]
    exact List.map_congr_left (fun r _ => rfl)

theorem predict_single_eval_error (p : Predictor) (w : WorkerFeatures)
    (m : SkModel) (pre : SkColumnTransformer) (enc : SkLabelEncoder)
    (meds means : List (String × ℚ)) (outs nf cf fn : List String) (c : String)
    (hl : p.loadedFlag = true) (hm : p.model = some m) (hpre : p.preprocessor = some pre)
    (henc : p.label_encoder = some enc)
    (h1 : p.train_medians = some meds) (h2 : p.train_means = some means)
    (h3 : p.numerical_cols_outliers = some outs) (h4 : p.numerical_features = some nf)
    (h5 : p.categorical_features = some cf) (h6 : p.feature_names = some fn)
    (hst : statsTotal meds means nf)
    (hfind : fn.find? (fun c => decide (c ∉ pipeCols)) = some c) :
    p.predict_single w = .error (.keyError c) := by
  refine predict_single_preprocess_error p w m pre enc _ hl hm hpre henc ?_
  rw [preprocess_worker_factor p meds means outs nf cf fn h1 h2 h3 h4 h5 h6 hst w [],
    hfind]

theorem predict_single_eval_ok (p : Predictor) (w : WorkerFeatures)
    (m : SkModel) (pre : SkColumnTransformer) (enc : SkLabelEncoder)
    (meds means : List (String × ℚ)) (outs nf cf fn : List String)
    (hl : p.loadedFlag = true) (hm : p.model = some m) (hpre : p.preprocessor = some pre)
    (henc : p.label_encoder = some enc)
    (h1 : p.train_medians = some meds) (h2 : p.train_means = some means)
    (h3 : p.numerical_cols_outliers = some outs) (h4 : p.numerical_features = some nf)
    (h5 : p.categorical_features = some cf) (h6 : p.feature_names = some fn)
    (hst : statsTotal meds means nf)
    (hfind : fn.find? (fun c => decide (c ∉ pipeCols)) = none) :
    p.predict_single w = .ok
      (inverse_transform enc (m.predict (pre.transform
          (Frame.projectRow fn (pipeRow meds means outs nf cf (model_dump w))))),
        enc.classes_.zip (m.predict_proba (pre.transform
          (Frame.projectRow fn (pipeRow meds means outs nf cf (model_dump w)))))) := by
  unfold Predictor.predict_single
  rw [if_neg (show ¬(p.loadedFlag = false) by simp [hl]), hm, hpre, henc]
  dsimp only
  rw [preprocess_worker_factor p meds means outs nf cf fn h1 h2 h3 h4 h5 h6 hst w [],
    hfind]
  rfl

theorem predict_batch_eval_error (p : Predictor) (w0 : WorkerFeatures)
    (ws : List WorkerFeatures)
    (m : SkModel) (pre : SkColumnTransformer) (enc : SkLabelEncoder)
    (meds means : List (String × ℚ)) (outs nf cf fn : List String) (c : String)
    (hl : p.loadedFlag = true) (hm : p.model = some m) (hpre : p.preprocessor = some pre)
    (henc : p.label_encoder = some enc)
    (h1 : p.train_medians = some meds) (h2 : p.train_means = some means)
    (h3 : p.numerical_cols_outliers = some outs) (h4 : p.numerical_features = some nf)
    (h5 : p.categorical_features = some cf) (h6 : p.feature_names = some fn)
    (hst : statsTotal meds means nf)
    (hfind : fn.find? (fun c => decide (c ∉ pipeCols)) = some c) :
    p.predict_batch (w0 :: ws) = .error (.keyError c) := by
  refine predict_batch_preprocess_error p (w0 :: ws) m pre enc _ hl hm hpre henc ?_
  rw [preprocess_worker_factor p meds means outs nf cf fn h1 h2 h3 h4 h5 h6 hst w0 ws,
    hfind]

theorem predict_batch_eval_ok (p : Predictor) (w0 : WorkerFeatures)
    (ws : List WorkerFeatures)
    (m : SkModel) (pre : SkColumnTransformer) (enc : SkLabelEncoder)
    (meds means : List (String × ℚ)) (outs nf cf fn : List String)
    (hl : p.loadedFlag = true) (hm : p.model = some m) (hpre : p.preprocessor = some pre)
    (henc : p.label_encoder = some enc)
    (h1 : p.train_medians = some meds) (h2 : p.train_means = some means)
    (h3 : p.numerical_cols_outliers = some outs) (h4 : p.numerical_features = some nf)
    (h5 : p.categorical_features = some cf) (h6 : p.feature_names = some fn)
    (hst : statsTotal meds means nf)
    (hfind : fn.find? (fun c => decide (c ∉ pipeCols)) = none) :
    p.predict_batch (w0 :: ws) = .ok ((w0 :: ws).map (fun w =>
      (inverse_transform enc (m.predict (pre.transform
          (Frame.projectRow fn (pipeRow meds means outs nf cf (model_dump w))))),
        enc.classes_.zip (m.predict_proba (pre.transform
          (Frame.projectRow fn (pipeRow meds means outs nf cf (model_dump w)))))))) := by
  unfold Predictor.predict_batch
  rw [if_neg (show ¬(p.loadedFlag = false) by simp [hl]), hm, hpre, henc]
  dsimp only
  rw [preprocess_worker_factor p meds means outs nf cf fn h1 h2 h3 h4 h5 h6 hst w0 ws]
  rw [hfind]
  simp only [Bind.bind, Except.bind, pure, Except.pure]
  refine congrArg _ ?_
  simp only [List.map_map, zip_map_same, Function.comp]
  exact List.map_congr_left (fun w _ => rfl)

/-- C3: on a predictor whose bundle statistics cover every declared
numerical feature (true of the artifact the training script produces),
batch prediction over a non-empty list of records equals the monadic map of
single-record prediction over that list — one result per input record, in
input order, with no rows dropped — and on success the result list has
exactly the input batch's length. -/
theorem claim_C3 (p : Predictor) (ws : List WorkerFeatures)
    (hstats : ∀ meds means nf, p.train_medians = some meds →
        p.train_means = some means → p.numerical_features = some nf →
        statsTotal meds means nf)
    (hne : ws ≠ []) :
    p.predict_batch ws = ws.mapM p.predict_single
    ∧ (∀ rs, p.predict_batch ws = .ok rs → rs.length = ws.length) := by
  obtain ⟨w0, ws', rfl⟩ := List.exists_cons_of_ne_nil hne
  have both : ∀ e : Err, p.predict_batch (w0 :: ws') = .error e →
      p.predict_single w0 = .error e →
      p.predict_batch (w0 :: ws') = (w0 :: ws').mapM p.predict_single
      ∧ (∀ rs, p.predict_batch (w0 :: ws') = .ok rs → rs.length = (w0 :: ws').length) := by
    intro e hb hs
    refine ⟨?_, ?_⟩
    · rw [hb, mapM_error_head _ _ _ _ hs]
    · intro rs h
      rw [hb] at h
      exact absurd h (by simp)
  by_cases hl : p.loadedFlag = false
  · exact both .runtimeNotLoaded (by simp [Predictor.predict_batch, hl])
      (by simp [Predictor.predict_single, hl])
  · have hl' : p.loadedFlag = true := by simpa using hl
    cases hm : p.model with
    | none =>
      exact both .attributeError (predict_batch_attr p _ hl' (.inl hm))
        (predict_single_attr p _ hl' (.inl hm))
    | some m =>
    cases hpre : p.preprocessor with
    | none =>
      exact both .attributeError (predict_batch_attr p _ hl' (.inr (.inl hpre)))
        (predict_single_attr p _ hl' (.inr (.inl hpre)))
    | some pre =>
    cases henc : p.label_encoder with
    | none =>
      exact both .attributeError (predict_batch_attr p _ hl' (.inr (.inr henc)))
        (predict_single_attr p _ hl' (.inr (.inr henc)))
    | some enc =>
    have hattr : (p.train_medians = none ∨ p.train_means = none ∨
        p.numerical_cols_outliers = none ∨ p.numerical_features = none ∨
        p.categorical_features = none ∨ p.feature_names = none) →
        p.predict_batch (w0 :: ws') = (w0 :: ws').mapM p.predict_single
        ∧ (∀ rs, p.predict_batch (w0 :: ws') = .ok rs →
            rs.length = (w0 :: ws').length) := by
      intro hnone
      exact both .attributeError
        (predict_batch_preprocess_error p _ m pre enc _ hl' hm hpre henc
          (preprocess_attr p _ hnone))
        (predict_single_preprocess_error p _ m pre enc _ hl' hm hpre henc
          (preprocess_attr p _ hnone))
    cases h1 : p.train_medians with
    | none => exact hattr (.inl h1)
    | some meds =>
    cases h2 : p.train_means with
    | none => exact hattr (.inr (.inl h2))
    | some means =>
    cases h3 : p.numerical_cols_outliers with
    | none => exact hattr (.inr (.inr (.inl h3)))
    | some outs =>
    cases h4 : p.numerical_features with
    | none => exact hattr (.inr (.inr (.inr (.inl h4))))
    | some nf =>
    cases h5 : p.categorical_features with
    | none => exact hattr (.inr (.inr (.inr (.inr (.inl h5)))))
    | some cf =>
    cases h6 : p.feature_names with
    | none => exact hattr (.inr (.inr (.inr (.inr (.inr h6)))))
    | some fn =>
    have hst := hstats meds means nf h1 h2 h4
    cases hfind : fn.find? (fun c => decide (c ∉ pipeCols)) with
    | some c =>
      exact both (.keyError c)
        (predict_batch_eval_error p w0 ws' m pre enc meds means outs nf cf fn c
          hl' hm hpre henc h1 h2 h3 h4 h5 h6 hst hfind)
        (predict_single_eval_error p w0 m pre enc meds means outs nf cf fn c
          hl' hm hpre henc h1 h2 h3 h4 h5 h6 hst hfind)
    | none =>
      have hb := predict_batch_eval_ok p w0 ws' m pre enc meds means outs nf cf fn
        hl' hm hpre henc h1 h2 h3 h4 h5 h6 hst hfind
      have hs : ∀ w, p.predict_single w = .ok
          (inverse_transform enc (m.predict (pre.transform
              (Frame.projectRow fn (pipeRow meds means outs nf cf (model_dump w))))),
            enc.classes_.zip (m.predict_proba (pre.transform
              (Frame.projectRow fn (pipeRow meds means outs nf cf (model_dump w)))))) :=
        fun w => predict_single_eval_ok p w m pre enc meds means outs nf cf fn
          hl' hm hpre henc h1 h2 h3 h4 h5 h6 hst hfind
      refine ⟨?_, ?_⟩
      · rw [hb, mapM_ok _ _ hs]
      · intro rs h
        rw [hb] at h
        injection h with h
        rw [← h]
        simp

/-- C3 witness: the theorem applied to the concrete loaded predictor (whose
statistics cover both declared numerical features) and a concrete two-record
batch. -/
theorem claim_C3_witness :
    cPred.predict_batch [cWorker, cWorkerEmpty]
      = [cWorker, cWorkerEmpty].mapM cPred.predict_single :=
  (claim_C3 cPred [cWorker, cWorkerEmpty]
    (fun meds means nf hm hmn hnf => by
      cases (show some cMedians = some meds from hm)
      cases (show some cMeans = some means from hmn)
      cases (show some cNumFeats = some nf from hnf)
      unfold statsTotal
      decide)
    (by simp)).1

/-- C3 counterexample to the claim as stated over arbitrary loaded
predictors: with a loaded bundle whose statistics dictionaries are empty,
the batch-median fallback of `fill_missing_values` imputes the first
record's missing age from the OTHER record of the batch, so the first batch
result differs from the single-record result on the same record. -/
theorem claim_C3_counterexample :
    cPredNoStats.predict_batch [cWorkerEmpty, wAge40]
      ≠ [cWorkerEmpty, wAge40].mapM cPredNoStats.predict_single := by
  intro h
  have hb : cPredNoStats.predict_batch [cWorkerEmpty, wAge40]
      = .ok [("Low", [("High", (1 : ℚ))]), ("Low", [("High", (1 : ℚ))])] := rfl
  have hs : [cWorkerEmpty, wAge40].mapM cPredNoStats.predict_single
      = .ok [("High", [("High", (0 : ℚ))]), ("Low", [("High", (1 : ℚ))])] := rfl
  rw [hb, hs] at h
  injection h with h
  exact absurd h (by decide)
